import Mathlib

/-!
Verification of the Kanban configuration and status-migration engine of the
email-dashboard repository. The definitions below are shallow embeddings of:

- the Express route handlers for the Kanban configuration
  (PUT /api/kanban/config, DELETE /api/kanban/config/columns/:columnId,
  PATCH /api/kanban/config/columns/:columnId);
- the pure helpers of the settings dialog (generateSlugFromTitle,
  generateUniqueStatus, isGmailLabelUsed) and its event handlers
  (handleUpdateColumn, handleDeleteColumn, handleSave order normalization);
- the board interaction handlers of the Kanban board component
  (handleDrop, handleSnooze).

Strings are modeled with Lean String, JavaScript object spreads with explicit
record updates, Mongo updateMany with a conditional map over the stored email
list, and wall-clock timestamps with natural numbers counted in seconds.
-/

namespace Kanban

/-- One Kanban column, as stored in the configuration document. The optional
gmailLabel is the provider-label binding; order is the display rank. -/
structure KanbanColumn where
  id : String
  status : String
  title : String
  color : String
  icon : String
  gmailLabel : Option String := none
  order : Int := 0
deriving DecidableEq, Repr

/-- Status-relevant subset of a stored email document. -/
structure StoredEmail where
  id : String
  userId : String
  status : String
deriving DecidableEq, Repr

/-- HTTP-level outcome of a configuration request. -/
inductive ApiStatus where
  | ok
  | badRequest
  | notFound
  | serverError
deriving DecidableEq, Repr

/-- The validation performed by the PUT and POST handlers: each column must
have truthy id, title, color and icon (a missing field deserializes as the
empty string, which is falsy in JavaScript). -/
def validColumn (c : KanbanColumn) : Bool :=
  decide (c.id ≠ "") && decide (c.title ≠ "") && decide (c.color ≠ "") && decide (c.icon ≠ "")

/-- Does an email match the updateMany filter of one migration entry. -/
def migMatches (userId old : String) (e : StoredEmail) : Bool :=
  decide (e.userId = userId) && decide (e.status = old)

/-- One EmailModel.updateMany call: rewrite the status of every email of this
user whose status equals the old value. -/
def applyEntry (userId old new : String) (emails : List StoredEmail) : List StoredEmail :=
  emails.map (fun e => if migMatches userId old e then { e with status := new } else e)

/-- The modifiedCount Mongo reports for one updateMany call: documents whose
stored value actually changed. -/
def entryModifiedCount (userId old new : String) (emails : List StoredEmail) : Nat :=
  if old = new then 0 else (emails.filter (migMatches userId old)).length

/-- The migration loop of the PUT handler: entries are applied sequentially,
each one a bulk conditional update, and the per-entry modified counts are
logged. The fails oracle says whether the i-th updateMany call throws; a
throw aborts the loop (the surrounding try/catch turns it into a 500).
Returns the email collection, the logged counts, and the failure flag. -/
def runMigrations (userId : String) (fails : Nat → Bool) :
    List (String × String) → List StoredEmail → Nat →
    List StoredEmail × List ((String × String) × Nat) × Bool
  | [], emails, _ => (emails, [], false)
  | (old, new) :: rest, emails, i =>
    if fails i then (emails, [], true)
    else
      let cnt := entryModifiedCount userId old new emails
      let r := runMigrations userId fails rest (applyEntry userId old new emails) (i + 1)
      (r.1, ((old, new), cnt) :: r.2.1, r.2.2)

/-- Full result of a PUT /api/kanban/config request: response status, the
configuration document after the request, the email collection after the
request, and the logged per-entry migration counts. -/
structure PutResult where
  status : ApiStatus
  config : Option (List KanbanColumn)
  emails : List StoredEmail
  counts : List ((String × String) × Nat)
deriving DecidableEq, Repr

/-- The PUT /api/kanban/config handler. Validation runs first; the migration
loop runs next; only then is the configuration replaced by the payload via
findOneAndUpdate with upsert. An exception thrown by any updateMany call is
caught by the surrounding try/catch, which responds 500 without saving the
columns; updates already applied are not rolled back. -/
def putConfigF (userId : String) (priorConfig : Option (List KanbanColumn))
    (priorEmails : List StoredEmail) (columns : List KanbanColumn)
    (migs : List (String × String)) (fails : Nat → Bool) : PutResult :=
  if columns.all validColumn then
    let r := runMigrations userId fails migs priorEmails 0
    if r.2.2 then ⟨.serverError, priorConfig, r.1, r.2.1⟩
    else ⟨.ok, some columns, r.1, r.2.1⟩
  else ⟨.badRequest, priorConfig, priorEmails, []⟩

/-- The PUT handler on the happy path where no database call throws. -/
def putConfig (userId : String) (priorConfig : Option (List KanbanColumn))
    (priorEmails : List StoredEmail) (columns : List KanbanColumn)
    (migs : List (String × String)) : PutResult :=
  putConfigF userId priorConfig priorEmails columns migs (fun _ => false)

/-- Outcome of a configuration request that does not touch emails. -/
structure ConfigResult where
  status : ApiStatus
  config : Option (List KanbanColumn)
deriving DecidableEq, Repr

/-- The DELETE /api/kanban/config/columns/:columnId handler: filters the
column out and saves, with no last-column guard and no order renumbering. -/
def deleteColumn (prior : Option (List KanbanColumn)) (columnId : String) : ConfigResult :=
  match prior with
  | none => ⟨.notFound, none⟩
  | some cfg => ⟨.ok, some (cfg.filter (fun c => decide (c.id ≠ columnId)))⟩

/-- A partial column as sent to the PATCH handler; a level of Option marks
which fields the request body carries. -/
structure ColumnPatch where
  status : Option String := none
  title : Option String := none
  color : Option String := none
  icon : Option String := none
  gmailLabel : Option (Option String) := none
  order : Option Int := none
deriving DecidableEq, Repr

/-- The object spread of the PATCH handler: updates override the stored
column field by field, and id is pinned back to the path parameter. -/
def mergeColumn (col : KanbanColumn) (u : ColumnPatch) (columnId : String) : KanbanColumn :=
  { id := columnId
    status := u.status.getD col.status
    title := u.title.getD col.title
    color := u.color.getD col.color
    icon := u.icon.getD col.icon
    gmailLabel := u.gmailLabel.getD col.gmailLabel
    order := u.order.getD col.order }

/-- Replace the first column whose id matches, as findIndex plus in-place
assignment does. -/
def patchList (cfg : List KanbanColumn) (columnId : String) (u : ColumnPatch) :
    List KanbanColumn :=
  match cfg with
  | [] => []
  | c :: rest =>
    if c.id = columnId then mergeColumn c u columnId :: rest
    else c :: patchList rest columnId u

/-- The PATCH /api/kanban/config/columns/:columnId handler: 404 when the
configuration or the column is missing, otherwise merge and save. No
status-uniqueness check is performed. -/
def patchColumn (prior : Option (List KanbanColumn)) (columnId : String)
    (u : ColumnPatch) : ConfigResult :=
  match prior with
  | none => ⟨.notFound, none⟩
  | some cfg =>
    if cfg.any (fun c => decide (c.id = columnId)) then
      ⟨.ok, some (patchList cfg columnId u)⟩
    else ⟨.notFound, some cfg⟩

/-! ### Slug generator (generateSlugFromTitle) -/

/-- Lowercase ASCII letter or decimal digit, the a-z0-9 part of the character
class of the slug regexes. -/
def isLowerAlphaNumB (c : Char) : Bool :=
  (decide (97 ≤ c.toNat) && decide (c.toNat ≤ 122)) ||
  (decide (48 ≤ c.toNat) && decide (c.toNat ≤ 57))

/-- Whitespace, the backslash-s class of the slug regexes (modeled by its
ASCII members: space, tab, line feed, vertical tab, form feed, carriage
return). -/
def isWsCharB (c : Char) : Bool :=
  decide (c = ' ') || decide (c = '\t') || decide (c = '\n') ||
  decide (c = '\x0b') || decide (c = '\x0c') || decide (c = '\r')

/-- A hyphen. -/
def isHyphenB (c : Char) : Bool :=
  decide (c = '-')

/-- Characters kept by the first replace of generateSlugFromTitle, whose
regex removes everything outside a-z, 0-9, whitespace and hyphen. -/
def isSlugKeepB (c : Char) : Bool :=
  isLowerAlphaNumB c || isWsCharB c || isHyphenB c

/-- Replace every maximal run of characters satisfying p by a single hyphen.
The flag records whether the previous character was part of such a run. This
models one global replace of a regex of the form class-plus with "-". -/
def squashRunsAux (p : Char → Bool) : Bool → List Char → List Char
  | _, [] => []
  | inRun, c :: cs =>
    if p c then
      if inRun then squashRunsAux p true cs
      else '-' :: squashRunsAux p true cs
    else c :: squashRunsAux p false cs

/-- String.prototype.trim: drop whitespace from both ends. -/
def trimChars (l : List Char) : List Char :=
  ((l.dropWhile isWsCharB).reverse.dropWhile isWsCharB).reverse

/-- Drop a single leading hyphen, as the caret-hyphen branch of the final
replace does. -/
def dropLeadHyphen : List Char → List Char
  | [] => []
  | c :: cs => if c = '-' then cs else c :: cs

/-- The final replace of generateSlugFromTitle: the regex removes one leading
and one trailing hyphen in a single global pass. -/
def stripEdgeHyphens (l : List Char) : List Char :=
  ((dropLeadHyphen l).reverse |> dropLeadHyphen).reverse

/-- The character-list pipeline of generateSlugFromTitle: lowercase, trim,
strip disallowed characters, collapse whitespace runs to single hyphens,
collapse hyphen runs, strip edge hyphens. -/
def slugChars (l : List Char) : List Char :=
  stripEdgeHyphens
    (squashRunsAux isHyphenB false
      (squashRunsAux isWsCharB false
        ((trimChars (l.map Char.toLower)).filter isSlugKeepB)))

/-- generateSlugFromTitle from the settings dialog: derive the status slug
from a title or Gmail label. -/
def generateSlugFromTitle (s : String) : String :=
  ⟨slugChars s.data⟩

/-! ### Status resolver (generateUniqueStatus) -/

/-- JavaScript truthiness of an optional string: undefined and the empty
string are falsy. -/
def isTruthy : Option String → Bool
  | none => false
  | some s => decide (s ≠ "")

/-- The collision test of the while loop in generateUniqueStatus: some column
other than the excluded one already carries this status. Comparing a string
id against an absent excludeId is always a mismatch in JavaScript. -/
def statusTaken (columns : List KanbanColumn) (excludeId : Option String) (s : String) : Bool :=
  columns.any (fun col =>
    decide (col.status = s) &&
    (match excludeId with
     | some e => decide (col.id ≠ e)
     | none => true))

/-- The candidate tried at step k of the while loop: the base itself first,
then the base with the decimal counter appended after a hyphen. -/
def statusCandidate (base : String) : Nat → String
  | 0 => base
  | k + 1 => base ++ "-" ++ Nat.repr (k + 1)

/-- The base slug of generateUniqueStatus: the Gmail label slug when the
label is truthy, the title slug otherwise. -/
def baseStatusOf (gmailLabel : Option String) (title : String) : String :=
  if isTruthy gmailLabel then generateSlugFromTitle (gmailLabel.getD "")
  else generateSlugFromTitle title

/-- The while loop of generateUniqueStatus, fueled. The source loop runs
unboundedly; it terminates because at most columns.length distinct strings
can be taken while successive candidates are pairwise distinct, so fuel
columns.length + 1 is sufficient (proved below as genLoop exits within the
first untaken candidate). -/
def genLoop (columns : List KanbanColumn) (excludeId : Option String) (base : String) :
    Nat → String → Nat → String
  | 0, status, _ => status
  | fuel + 1, status, counter =>
    if statusTaken columns excludeId status then
      genLoop columns excludeId base fuel (base ++ "-" ++ Nat.repr counter) (counter + 1)
    else status

/-- generateUniqueStatus from the settings dialog: resolve a unique status
identifier from the Gmail label or title, appending numeric suffixes on
collision. -/
def generateUniqueStatus (gmailLabel : Option String) (title : String)
    (columns : List KanbanColumn) (excludeId : Option String) : String :=
  let baseStatus := baseStatusOf gmailLabel title
  genLoop columns excludeId baseStatus (columns.length + 1) baseStatus 1

/-- isGmailLabelUsed from the settings dialog: is this label already claimed
by a column other than the excluded one. -/
def isGmailLabelUsed (gmailLabel : String) (columns : List KanbanColumn)
    (excludeColumnId : Option String) : Bool :=
  columns.any (fun col =>
    decide (col.gmailLabel = some gmailLabel) &&
    (match excludeColumnId with
     | some e => decide (col.id ≠ e)
     | none => true))

/-! ### Settings dialog handlers -/

/-- The column field being edited through handleUpdateColumn. -/
inductive ColumnField where
  | title
  | color
  | icon
  | gmailLabel
deriving DecidableEq, Repr

/-- The computed-key object spread of handleUpdateColumn. The dialog passes a
string for title, color and icon, and an optional string for gmailLabel; an
absent value is modeled as the empty string for the string-typed fields,
which JavaScript treats as the same falsy value. -/
def applyFieldUpdate (col : KanbanColumn) (field : ColumnField) (value : Option String) :
    KanbanColumn :=
  match field with
  | .title => { col with title := value.getD "" }
  | .color => { col with color := value.getD "" }
  | .icon => { col with icon := value.getD "" }
  | .gmailLabel => { col with gmailLabel := value }

/-- The arrow function handleUpdateColumn maps over the column list: update
the field on the matching column and, for title or gmailLabel edits,
re-derive its status with generateUniqueStatus against the previous column
list, excluding the column itself. A falsy new title falls back to the old
title for slug derivation (though the title field itself is overwritten). -/
def updateColumnEntry (columns : List KanbanColumn) (columnId : String)
    (field : ColumnField) (value : Option String) (col : KanbanColumn) : KanbanColumn :=
  if col.id = columnId then
    let updatedCol := applyFieldUpdate col field value
    if field = .gmailLabel ∨ field = .title then
      let newGmailLabel := if field = .gmailLabel then value else col.gmailLabel
      let newTitle :=
        if field = .title then
          match value with
          | some v => if v = "" then col.title else v
          | none => col.title
        else col.title
      { updatedCol with
        status := generateUniqueStatus newGmailLabel newTitle columns (some col.id) }
    else updatedCol
  else col

/-- handleUpdateColumn from the settings dialog: reject a gmailLabel that
another column already uses; otherwise map the per-column update over the
list. -/
def handleUpdateColumn (columns : List KanbanColumn) (columnId : String)
    (field : ColumnField) (value : Option String) : List KanbanColumn :=
  if field = .gmailLabel ∧ isTruthy value ∧
      isGmailLabelUsed (value.getD "") columns (some columnId) then columns
  else
    columns.map (updateColumnEntry columns columnId field value)

/-- handleDeleteColumn from the settings dialog: refuse to go below one
column; otherwise, after the user confirms, drop the column locally. -/
def handleDeleteColumn (columns : List KanbanColumn) (columnId : String)
    (confirmed : Bool) : List KanbanColumn :=
  if columns.length ≤ 1 then columns
  else if confirmed then columns.filter (fun c => decide (c.id ≠ columnId))
  else columns

/-- The order normalization of handleSave: order is rewritten to the array
index before the PUT request is sent. -/
def orderColumns (columns : List KanbanColumn) : List KanbanColumn :=
  columns.enum.map (fun p => { p.2 with order := (p.1 : Int) })

/-! ### Board interaction handlers (Kanban board component) -/

/-- Client-side email card. snoozeUntil is a timestamp in seconds. -/
structure BoardEmail where
  id : String
  status : String
  snoozeUntil : Option Nat := none
deriving DecidableEq, Repr

/-- The emailsByStatus record, modeled as an association list from status to
bucket. -/
def getBucket (board : List (String × List BoardEmail)) (s : String) :
    Option (List BoardEmail) :=
  (board.find? (fun p => p.1 == s)).map (fun p => p.2)

/-- The object spread that overrides one key of the record: replace the value
at an existing key in place, or append the key. -/
def setBucket (board : List (String × List BoardEmail)) (k : String)
    (v : List BoardEmail) : List (String × List BoardEmail) :=
  if board.any (fun p => p.1 == k) then
    board.map (fun p => if p.1 = k then (k, v) else p)
  else board ++ [(k, v)]

/-- handleDrop from the board component, on the path where the backend call
succeeds. Dropping on the hardcoded snoozed status sets a default snooze of
one hour; any other target clears snoozeUntil. The result is none when the
handler would dereference a missing bucket (a runtime TypeError in the
source). setHours plus one is modeled as adding 3600 seconds. -/
def handleDrop (board : List (String × List BoardEmail)) (dragging : Option BoardEmail)
    (targetStatus : String) (now : Nat) : Option (List (String × List BoardEmail)) :=
  match dragging with
  | none => some board
  | some em =>
    if em.status = targetStatus then some board
    else if targetStatus = "snoozed" then
      match getBucket board em.status, getBucket board "snoozed" with
      | some srcBucket, some snBucket =>
        some (setBucket
          (setBucket board em.status (srcBucket.filter (fun e => decide (e.id ≠ em.id))))
          "snoozed"
          (snBucket ++ [{ em with status := "snoozed", snoozeUntil := some (now + 3600) }]))
      | _, _ => none
    else
      match getBucket board em.status, getBucket board targetStatus with
      | some srcBucket, some tgtBucket =>
        some (setBucket
          (setBucket board em.status (srcBucket.filter (fun e => decide (e.id ≠ em.id))))
          targetStatus
          (tgtBucket ++ [{ em with status := targetStatus, snoozeUntil := none }]))
      | _, _ => none

/-- The bucket search of handleSnooze: look for the email in the four
hardcoded buckets, in order. -/
def searchFour (inbox todo done snoozed : List BoardEmail) (emailId : String) :
    Option (String × BoardEmail) :=
  match inbox.find? (fun e => e.id == emailId) with
  | some e => some ("inbox", e)
  | none =>
    match todo.find? (fun e => e.id == emailId) with
    | some e => some ("todo", e)
    | none =>
      match done.find? (fun e => e.id == emailId) with
      | some e => some ("done", e)
      | none => (snoozed.find? (fun e => e.id == emailId)).map (fun e => ("snoozed", e))

/-- handleSnooze from the board component, on the path where the backend call
succeeds. The handler searches only the four hardcoded buckets; when the
email is not found there the updater returns the previous record unchanged.
When found, it rebuilds a record with exactly the four hardcoded keys,
filtering the source bucket and either updating snoozeUntil in place (when
the source is the snoozed bucket) or appending the moved email. The result
is none when a hardcoded bucket is missing, which the source dereferences. -/
def handleSnooze (board : List (String × List BoardEmail)) (emailId : String)
    (now hours : Nat) : Option (List (String × List BoardEmail)) :=
  let t := now + hours * 3600
  match getBucket board "inbox", getBucket board "todo",
        getBucket board "done", getBucket board "snoozed" with
  | some inbox, some todo, some done, some snoozed =>
    match searchFour inbox todo done snoozed emailId with
    | none => some board
    | some (src, em) =>
      some
        [ ("inbox", if src = "inbox" then inbox.filter (fun e => decide (e.id ≠ emailId)) else inbox),
          ("todo", if src = "todo" then todo.filter (fun e => decide (e.id ≠ emailId)) else todo),
          ("done", if src = "done" then done.filter (fun e => decide (e.id ≠ emailId)) else done),
          ("snoozed",
            if src = "snoozed" then
              snoozed.map (fun e => if e.id = emailId then { e with snoozeUntil := some t } else e)
            else snoozed ++ [{ em with status := "snoozed", snoozeUntil := some t }]) ]
  | _, _, _, _ => none

/-- The default four-column set seeded by the GET handler. -/
def defaultColumns : List KanbanColumn :=
  [ { id := "col-inbox", status := "inbox", title := "Inbox",
      color := "bg-blue-500", icon := "Inbox", gmailLabel := some "INBOX", order := 0 },
    { id := "col-todo", status := "todo", title := "To Do",
      color := "bg-yellow-500", icon := "Clock", gmailLabel := some "STARRED", order := 1 },
    { id := "col-done", status := "done", title := "Done",
      color := "bg-green-500", icon := "CheckCircle", gmailLabel := none, order := 2 },
    { id := "col-snoozed", status := "snoozed", title := "Snoozed",
      color := "bg-purple-500", icon := "Clock", gmailLabel := none, order := 3 } ]

/-! ### Decimal representation of Nat is injective

The while loop of generateUniqueStatus relies on successive candidates being
pairwise distinct strings; this needs injectivity of the decimal rendering
used by string interpolation, proved here against the core definition. -/

/-- The digit list of n in base ten, most significant first, defined by
well-founded recursion (matching what Nat.toDigitsCore computes). -/
def natDecDigits (n : Nat) : List Char :=
  if _h : n < 10 then [Nat.digitChar n]
  else natDecDigits (n / 10) ++ [Nat.digitChar (n % 10)]
termination_by n
decreasing_by
  exact Nat.div_lt_self (by omega) (by omega)

theorem natDecDigits_ne_nil (n : Nat) : natDecDigits n ≠ [] := by
  rw [natDecDigits]
  split <;> simp

theorem toDigitsCore_eq_natDecDigits :
    ∀ (fuel n : Nat) (ds : List Char), n < fuel →
      Nat.toDigitsCore 10 fuel n ds = natDecDigits n ++ ds := by
  intro fuel
  induction fuel with
  | zero => intro n ds h; omega
  | succ fuel ih =>
    intro n ds h
    rw [Nat.toDigitsCore]
    by_cases h10 : n / 10 = 0
    · have hn : n < 10 := by omega
      have hmod : n % 10 = n := Nat.mod_eq_of_lt hn
      simp only [h10, if_pos rfl, hmod]
      rw [natDecDigits]
      simp [hn]
    · have hn : ¬ n < 10 := by
        intro hc
        exact h10 (Nat.div_eq_of_lt hc)
      have hlt : n / 10 < fuel := by
        have : n / 10 < n := Nat.div_lt_self (by omega) (by omega)
        omega
      simp only [if_neg h10]
      rw [ih (n / 10) (Nat.digitChar (n % 10) :: ds) hlt]
      conv_rhs => rw [natDecDigits]
      simp [hn]

theorem nat_repr_eq_natDecDigits (n : Nat) : Nat.repr n = ⟨natDecDigits n⟩ := by
  show (Nat.toDigits 10 n).asString = _
  rw [Nat.toDigits, toDigitsCore_eq_natDecDigits (n + 1) n [] (by omega)]
  simp [List.asString]

theorem digitChar_inj_lt_ten (a b : Nat) (ha : a < 10) (hb : b < 10)
    (h : Nat.digitChar a = Nat.digitChar b) : a = b := by
  interval_cases a <;> interval_cases b <;> first | rfl | (exfalso; exact absurd h (by decide))

theorem natDecDigits_of_lt (n : Nat) (h : n < 10) : natDecDigits n = [Nat.digitChar n] := by
  rw [natDecDigits]
  simp [h]

theorem natDecDigits_of_ge (n : Nat) (h : ¬ n < 10) :
    natDecDigits n = natDecDigits (n / 10) ++ [Nat.digitChar (n % 10)] := by
  conv_lhs => rw [natDecDigits]
  simp [h]

theorem natDecDigits_injective : ∀ {a b : Nat}, natDecDigits a = natDecDigits b → a = b := by
  intro a
  induction a using Nat.strong_induction_on with
  | _ a ih =>
    intro b h
    by_cases ha : a < 10 <;> by_cases hb : b < 10
    · rw [natDecDigits_of_lt a ha, natDecDigits_of_lt b hb] at h
      simp only [List.cons.injEq, and_true] at h
      exact digitChar_inj_lt_ten a b ha hb h
    · exfalso
      rw [natDecDigits_of_lt a ha, natDecDigits_of_ge b hb] at h
      have hlen := congrArg List.length h
      simp only [List.length_append, List.length_cons, List.length_nil] at hlen
      exact natDecDigits_ne_nil (b / 10) (List.length_eq_zero.mp (by omega))
    · exfalso
      rw [natDecDigits_of_ge a ha, natDecDigits_of_lt b hb] at h
      have hlen := congrArg List.length h
      simp only [List.length_append, List.length_cons, List.length_nil] at hlen
      exact natDecDigits_ne_nil (a / 10) (List.length_eq_zero.mp (by omega))
    · rw [natDecDigits_of_ge a ha, natDecDigits_of_ge b hb] at h
      have hrev := congrArg List.reverse h
      simp only [List.reverse_append, List.reverse_cons, List.reverse_nil,
        List.nil_append, List.cons_append] at hrev
      rw [List.cons.injEq] at hrev
      have hdig : Nat.digitChar (a % 10) = Nat.digitChar (b % 10) := hrev.1
      have htail : natDecDigits (a / 10) = natDecDigits (b / 10) :=
        List.reverse_inj.mp hrev.2
      have hq : a / 10 = b / 10 :=
        ih (a / 10) (Nat.div_lt_self (by omega) (by omega)) htail
      have hr : a % 10 = b % 10 :=
        digitChar_inj_lt_ten _ _ (Nat.mod_lt _ (by omega)) (Nat.mod_lt _ (by omega)) hdig
      omega

theorem nat_repr_injective {a b : Nat} (h : Nat.repr a = Nat.repr b) : a = b := by
  rw [nat_repr_eq_natDecDigits, nat_repr_eq_natDecDigits] at h
  exact natDecDigits_injective (congrArg String.data h)

theorem nat_repr_length_pos (n : Nat) : 0 < (Nat.repr n).length := by
  rw [nat_repr_eq_natDecDigits]
  show 0 < (natDecDigits n).length
  cases hmt : natDecDigits n with
  | nil => exact absurd hmt (natDecDigits_ne_nil n)
  | cons x xs => simp

/-! ### Correctness of the status resolver -/

theorem string_append_cancel_left {a b c : String} (h : a ++ b = a ++ c) : b = c := by
  have hd := congrArg String.data h
  simp only [String.data_append] at hd
  exact String.ext (List.append_cancel_left hd)

theorem statusCandidate_injective (base : String) :
    Function.Injective (statusCandidate base) := by
  intro i j h
  match i, j with
  | 0, 0 => rfl
  | 0, k + 1 =>
    exfalso
    have hlen := congrArg String.length h
    simp only [statusCandidate, String.length_append] at hlen
    have := nat_repr_length_pos (k + 1)
    omega
  | k + 1, 0 =>
    exfalso
    have hlen := congrArg String.length h
    simp only [statusCandidate, String.length_append] at hlen
    have := nat_repr_length_pos (k + 1)
    omega
  | k + 1, j + 1 =>
    simp only [statusCandidate] at h
    have h2 : Nat.repr (k + 1) = Nat.repr (j + 1) :=
      string_append_cancel_left (a := base ++ "-")
        (by simpa [String.append_assoc] using h)
    have := nat_repr_injective h2
    omega

theorem exists_untaken (columns : List KanbanColumn) (excludeId : Option String)
    (base : String) :
    ∃ j, j ≤ columns.length ∧
      statusTaken columns excludeId (statusCandidate base j) = false := by
  by_contra hcon
  push_neg at hcon
  have htaken : ∀ j, j ≤ columns.length →
      statusTaken columns excludeId (statusCandidate base j) = true := by
    intro j hj
    have := hcon j hj
    simpa using this
  have hsub : (Finset.range (columns.length + 1)).image (statusCandidate base) ⊆
      (columns.map (fun c => c.status)).toFinset := by
    intro s hs
    simp only [Finset.mem_image, Finset.mem_range] at hs
    obtain ⟨j, hj, rfl⟩ := hs
    have ht := htaken j (by omega)
    simp only [statusTaken, List.any_eq_true, Bool.and_eq_true, decide_eq_true_eq] at ht
    obtain ⟨col, hcol, hstat, _⟩ := ht
    rw [List.mem_toFinset]
    exact hstat ▸ List.mem_map_of_mem _ hcol
  have hcard1 : ((Finset.range (columns.length + 1)).image (statusCandidate base)).card =
      columns.length + 1 := by
    rw [Finset.card_image_of_injective _ (statusCandidate_injective base), Finset.card_range]
  have hcard2 := Finset.card_le_card hsub
  have hcard3 := (columns.map (fun c => c.status)).toFinset_card_le
  rw [hcard1] at hcard2
  rw [List.length_map] at hcard3
  omega

theorem genLoop_spec (columns : List KanbanColumn) (excludeId : Option String)
    (base : String) :
    ∀ (fuel i : Nat),
      (∃ j, j < fuel ∧ statusTaken columns excludeId (statusCandidate base (i + j)) = false) →
      ∃ m, genLoop columns excludeId base fuel (statusCandidate base i) (i + 1) =
            statusCandidate base (i + m)
        ∧ statusTaken columns excludeId (statusCandidate base (i + m)) = false
        ∧ ∀ j, j < m → statusTaken columns excludeId (statusCandidate base (i + j)) = true := by
  intro fuel
  induction fuel with
  | zero =>
    intro i h
    obtain ⟨j, hj, _⟩ := h
    omega
  | succ fuel ih =>
    intro i h
    obtain ⟨j, hj, hjf⟩ := h
    rw [genLoop]
    by_cases htk : statusTaken columns excludeId (statusCandidate base i) = true
    · rw [if_pos htk]
      have hnext : base ++ "-" ++ Nat.repr (i + 1) = statusCandidate base (i + 1) := rfl
      rw [hnext]
      have hex : ∃ j, j < fuel ∧
          statusTaken columns excludeId (statusCandidate base ((i + 1) + j)) = false := by
        cases j with
        | zero =>
          rw [Nat.add_zero] at hjf
          rw [htk] at hjf
          exact absurd hjf (by simp)
        | succ j' =>
          exact ⟨j', by omega, by rw [show i + 1 + j' = i + (j' + 1) by omega]; exact hjf⟩
      obtain ⟨m, hm1, hm2, hm3⟩ := ih (i + 1) hex
      refine ⟨m + 1, ?_, ?_, ?_⟩
      · rw [show i + (m + 1) = (i + 1) + m by omega]
        exact hm1
      · rw [show i + (m + 1) = (i + 1) + m by omega]
        exact hm2
      · intro j' hjm
        cases j' with
        | zero => simpa using htk
        | succ j'' =>
          rw [show i + (j'' + 1) = (i + 1) + j'' by omega]
          exact hm3 j'' (by omega)
    · have htk' : statusTaken columns excludeId (statusCandidate base i) = false := by
        simpa using htk
      rw [if_neg (by simp [htk'])]
      exact ⟨0, by rw [Nat.add_zero], by rw [Nat.add_zero]; exact htk', by omega⟩

theorem generateUniqueStatus_spec (gmailLabel : Option String) (title : String)
    (columns : List KanbanColumn) (excludeId : Option String) :
    ∃ m, generateUniqueStatus gmailLabel title columns excludeId =
          statusCandidate (baseStatusOf gmailLabel title) m
      ∧ statusTaken columns excludeId
          (statusCandidate (baseStatusOf gmailLabel title) m) = false
      ∧ ∀ j, j < m → statusTaken columns excludeId
          (statusCandidate (baseStatusOf gmailLabel title) j) = true := by
  obtain ⟨j0, hj0, hj0f⟩ := exists_untaken columns excludeId (baseStatusOf gmailLabel title)
  have hex : ∃ j, j < columns.length + 1 ∧ statusTaken columns excludeId
      (statusCandidate (baseStatusOf gmailLabel title) (0 + j)) = false :=
    ⟨j0, by omega, by simpa using hj0f⟩
  obtain ⟨m, h1, h2, h3⟩ :=
    genLoop_spec columns excludeId (baseStatusOf gmailLabel title) (columns.length + 1) 0 hex
  refine ⟨m, ?_, by simpa using h2, fun j hj => by simpa using h3 j hj⟩
  show genLoop columns excludeId (baseStatusOf gmailLabel title) (columns.length + 1)
    (baseStatusOf gmailLabel title) 1 = _
  have hzero : baseStatusOf gmailLabel title =
      statusCandidate (baseStatusOf gmailLabel title) 0 := rfl
  rw [hzero]
  simpa using h1

theorem generateUniqueStatus_not_taken (gmailLabel : Option String) (title : String)
    (columns : List KanbanColumn) (excludeId : Option String) :
    statusTaken columns excludeId (generateUniqueStatus gmailLabel title columns excludeId) =
      false := by
  obtain ⟨m, h1, h2, _⟩ := generateUniqueStatus_spec gmailLabel title columns excludeId
  rw [h1]
  exact h2

theorem generateUniqueStatus_avoids (gmailLabel : Option String) (title : String)
    (columns : List KanbanColumn) (excludeId : Option String) :
    ∀ col ∈ columns, (∀ e, excludeId = some e → col.id ≠ e) →
      col.status ≠ generateUniqueStatus gmailLabel title columns excludeId := by
  intro col hcol hid heq
  have hnt := generateUniqueStatus_not_taken gmailLabel title columns excludeId
  rw [statusTaken, List.any_eq_false] at hnt
  have hfalse := hnt col hcol
  cases excludeId with
  | none => simp [heq] at hfalse
  | some e =>
    have hne : col.id ≠ e := hid e rfl
    simp [heq, hne] at hfalse

/-! ### Claim C5 -/

/-- C5: generateUniqueStatus returns a status equal to no column status in
the list other than the excluded column; when the base slug collides with no
other column the result is exactly the base slug; otherwise the result is the
base slug suffixed with a hyphen and the least positive integer that collides
with no other column. -/
theorem claim_C5_generateUniqueStatus (gmailLabel : Option String) (title : String)
    (columns : List KanbanColumn) (excludeId : Option String) :
    (∀ col ∈ columns, (∀ e, excludeId = some e → col.id ≠ e) →
      col.status ≠ generateUniqueStatus gmailLabel title columns excludeId)
    ∧ (statusTaken columns excludeId (baseStatusOf gmailLabel title) = false →
        generateUniqueStatus gmailLabel title columns excludeId =
          baseStatusOf gmailLabel title)
    ∧ (statusTaken columns excludeId (baseStatusOf gmailLabel title) = true →
        ∃ k, 0 < k
          ∧ generateUniqueStatus gmailLabel title columns excludeId =
              baseStatusOf gmailLabel title ++ "-" ++ Nat.repr k
          ∧ statusTaken columns excludeId
              (baseStatusOf gmailLabel title ++ "-" ++ Nat.repr k) = false
          ∧ ∀ j, 0 < j → j < k →
              statusTaken columns excludeId
                (baseStatusOf gmailLabel title ++ "-" ++ Nat.repr j) = true) := by
  obtain ⟨m, h1, h2, h3⟩ := generateUniqueStatus_spec gmailLabel title columns excludeId
  refine ⟨generateUniqueStatus_avoids gmailLabel title columns excludeId, ?_, ?_⟩
  · intro hbase
    cases m with
    | zero => exact h1
    | succ m' =>
      have := h3 0 (by omega)
      rw [show statusCandidate (baseStatusOf gmailLabel title) 0 =
        baseStatusOf gmailLabel title from rfl] at this
      rw [this] at hbase
      exact absurd hbase (by simp)
  · intro hbase
    cases m with
    | zero =>
      rw [show statusCandidate (baseStatusOf gmailLabel title) 0 =
        baseStatusOf gmailLabel title from rfl] at h2
      rw [h2] at hbase
      exact absurd hbase (by simp)
    | succ m' =>
      refine ⟨m' + 1, by omega, h1, h2, ?_⟩
      intro j hj0 hjk
      match j, hj0 with
      | j'' + 1, _ =>
        exact h3 (j'' + 1) hjk

/-- Witness for C5 at a concrete input: resolving the title Inbox against the
default column set, with an excluded id that matches no column, yields the
suffixed status since the base slug inbox is already taken. -/
theorem claim_C5_generateUniqueStatus_witness :
    ((∀ col ∈ defaultColumns, (∀ e, (some "col-x" : Option String) = some e → col.id ≠ e) →
      col.status ≠ generateUniqueStatus none "Inbox" defaultColumns (some "col-x"))
    ∧ (statusTaken defaultColumns (some "col-x") (baseStatusOf none "Inbox") = false →
        generateUniqueStatus none "Inbox" defaultColumns (some "col-x") =
          baseStatusOf none "Inbox")
    ∧ (statusTaken defaultColumns (some "col-x") (baseStatusOf none "Inbox") = true →
        ∃ k, 0 < k
          ∧ generateUniqueStatus none "Inbox" defaultColumns (some "col-x") =
              baseStatusOf none "Inbox" ++ "-" ++ Nat.repr k
          ∧ statusTaken defaultColumns (some "col-x")
              (baseStatusOf none "Inbox" ++ "-" ++ Nat.repr k) = false
          ∧ ∀ j, 0 < j → j < k →
              statusTaken defaultColumns (some "col-x")
                (baseStatusOf none "Inbox" ++ "-" ++ Nat.repr j) = true))
    ∧ generateUniqueStatus none "Inbox" defaultColumns (some "col-x") = "inbox-1" :=
  ⟨claim_C5_generateUniqueStatus none "Inbox" defaultColumns (some "col-x"), by decide⟩

/-! ### Properties of the slug generator -/

/-- No two adjacent hyphens, the shape the hyphen-run collapse enforces. -/
def NoHyphenRun (l : List Char) : Prop :=
  List.Chain' (fun a b => ¬(a = '-' ∧ b = '-')) l

theorem mem_squashRunsAux (p : Char → Bool) (l : List Char) :
    ∀ (b : Bool) (c : Char), c ∈ squashRunsAux p b l →
      c = '-' ∨ (c ∈ l ∧ p c = false) := by
  induction l with
  | nil =>
    intro b c hc
    simp [squashRunsAux] at hc
  | cons x xs ih =>
    intro b c hc
    by_cases hp : p x
    · by_cases hb : b
      · rw [show squashRunsAux p b (x :: xs) = squashRunsAux p true xs by
          subst hb; simp [squashRunsAux, hp]] at hc
        rcases ih true c hc with h | ⟨hm, hf⟩
        · exact Or.inl h
        · exact Or.inr ⟨List.mem_cons_of_mem x hm, hf⟩
      · rw [show squashRunsAux p b (x :: xs) = '-' :: squashRunsAux p true xs by
          simp only [Bool.not_eq_true] at hb; subst hb; simp [squashRunsAux, hp]] at hc
        rcases List.mem_cons.mp hc with h | h
        · exact Or.inl h
        · rcases ih true c h with h2 | ⟨hm, hf⟩
          · exact Or.inl h2
          · exact Or.inr ⟨List.mem_cons_of_mem x hm, hf⟩
    · rw [show squashRunsAux p b (x :: xs) = x :: squashRunsAux p false xs by
        cases b <;> simp [squashRunsAux, hp]] at hc
      rcases List.mem_cons.mp hc with h | h
      · exact Or.inr ⟨by rw [h]; exact List.mem_cons_self x xs, by rw [h]; simpa using hp⟩
      · rcases ih false c h with h2 | ⟨hm, hf⟩
        · exact Or.inl h2
        · exact Or.inr ⟨List.mem_cons_of_mem x hm, hf⟩

theorem squashRunsAux_true_head (l : List Char) :
    ∀ c ∈ (squashRunsAux isHyphenB true l).head?, c ≠ '-' := by
  induction l with
  | nil => simp [squashRunsAux]
  | cons x xs ih =>
    by_cases hp : isHyphenB x
    · simpa [squashRunsAux, hp] using ih
    · intro c hc
      simp only [squashRunsAux, hp, Bool.false_eq_true, if_false, List.head?_cons,
        Option.mem_def, Option.some.injEq] at hc
      subst hc
      intro hcon
      subst hcon
      exact hp (by decide)

theorem squashRunsAux_hyphen_chain : ∀ (b : Bool) (l : List Char),
    NoHyphenRun (squashRunsAux isHyphenB b l) := by
  intro b l
  induction l generalizing b with
  | nil => simp [squashRunsAux, NoHyphenRun]
  | cons x xs ih =>
    by_cases hp : isHyphenB x
    · by_cases hb : b
      · subst hb
        simpa [squashRunsAux, hp] using ih true
      · simp only [Bool.not_eq_true] at hb
        subst hb
        rw [show squashRunsAux isHyphenB false (x :: xs) =
          '-' :: squashRunsAux isHyphenB true xs by simp [squashRunsAux, hp]]
        rw [NoHyphenRun, List.chain'_cons']
        refine ⟨?_, ih true⟩
        intro y hy hcon
        exact squashRunsAux_true_head xs y hy hcon.2
    · rw [show squashRunsAux isHyphenB b (x :: xs) =
        x :: squashRunsAux isHyphenB false xs by cases b <;> simp [squashRunsAux, hp]]
      rw [NoHyphenRun, List.chain'_cons']
      refine ⟨?_, ih false⟩
      intro y _ hcon
      exact hp (hcon.1 ▸ (by decide))

theorem dropLeadHyphen_subset (l : List Char) : dropLeadHyphen l ⊆ l := by
  cases l with
  | nil => simp [dropLeadHyphen]
  | cons x xs =>
    rw [dropLeadHyphen]
    split
    · exact List.subset_cons_self x xs
    · exact fun a ha => ha

theorem dropLeadHyphen_head (l : List Char) (h : NoHyphenRun l) :
    ∀ c ∈ (dropLeadHyphen l).head?, c ≠ '-' := by
  cases l with
  | nil => simp [dropLeadHyphen]
  | cons x xs =>
    by_cases hx : x = '-'
    · subst hx
      rw [show dropLeadHyphen ('-' :: xs) = xs by simp [dropLeadHyphen]]
      rw [NoHyphenRun, List.chain'_cons'] at h
      intro c hc hcon
      exact h.1 c hc ⟨rfl, hcon⟩
    · rw [show dropLeadHyphen (x :: xs) = x :: xs by simp [dropLeadHyphen, hx]]
      intro c hc
      simp only [List.head?_cons, Option.mem_def, Option.some.injEq] at hc
      subst hc
      exact hx

theorem dropLeadHyphen_chain (l : List Char) (h : NoHyphenRun l) :
    NoHyphenRun (dropLeadHyphen l) := by
  cases l with
  | nil => exact h
  | cons x xs =>
    rw [dropLeadHyphen]
    split
    · exact List.Chain'.tail h
    · exact h

theorem dropLeadHyphen_getLast (l : List Char) (h : ∀ c ∈ l.getLast?, c ≠ '-') :
    ∀ c ∈ (dropLeadHyphen l).getLast?, c ≠ '-' := by
  cases l with
  | nil => simp [dropLeadHyphen]
  | cons x xs =>
    by_cases hx : x = '-'
    · subst hx
      rw [show dropLeadHyphen ('-' :: xs) = xs by simp [dropLeadHyphen]]
      cases xs with
      | nil => simp
      | cons y ys =>
        intro c hc
        exact h c (by rw [List.getLast?_cons_cons]; exact hc)
    · rw [show dropLeadHyphen (x :: xs) = x :: xs by simp [dropLeadHyphen, hx]]
      exact h

theorem noHyphenRun_reverse (l : List Char) (h : NoHyphenRun l) :
    NoHyphenRun l.reverse := by
  rw [NoHyphenRun, List.chain'_reverse]
  exact h.imp (fun a b hab hcon => hab ⟨hcon.2, hcon.1⟩)

theorem stripEdgeHyphens_spec (l : List Char) (h : NoHyphenRun l) :
    (∀ c ∈ (stripEdgeHyphens l).head?, c ≠ '-')
    ∧ (∀ c ∈ (stripEdgeHyphens l).getLast?, c ≠ '-')
    ∧ NoHyphenRun (stripEdgeHyphens l)
    ∧ stripEdgeHyphens l ⊆ l := by
  have hshape : stripEdgeHyphens l =
      (dropLeadHyphen ((dropLeadHyphen l).reverse)).reverse := rfl
  have hl1chain : NoHyphenRun (dropLeadHyphen l) := dropLeadHyphen_chain l h
  have hl1head : ∀ c ∈ (dropLeadHyphen l).head?, c ≠ '-' := dropLeadHyphen_head l h
  have hrevchain : NoHyphenRun (dropLeadHyphen l).reverse := noHyphenRun_reverse _ hl1chain
  have hl2chain : NoHyphenRun (dropLeadHyphen ((dropLeadHyphen l).reverse)) :=
    dropLeadHyphen_chain _ hrevchain
  have hl2head : ∀ c ∈ (dropLeadHyphen ((dropLeadHyphen l).reverse)).head?, c ≠ '-' :=
    dropLeadHyphen_head _ hrevchain
  have hrevlast : ∀ c ∈ (dropLeadHyphen l).reverse.getLast?, c ≠ '-' := by
    intro c hc
    rw [List.getLast?_reverse] at hc
    exact hl1head c hc
  have hl2last : ∀ c ∈ (dropLeadHyphen ((dropLeadHyphen l).reverse)).getLast?, c ≠ '-' :=
    dropLeadHyphen_getLast _ hrevlast
  refine ⟨?_, ?_, ?_, ?_⟩
  · intro c hc
    rw [hshape, List.head?_reverse] at hc
    exact hl2last c hc
  · intro c hc
    rw [hshape, List.getLast?_reverse] at hc
    exact hl2head c hc
  · rw [hshape]
    exact noHyphenRun_reverse _ hl2chain
  · rw [hshape]
    intro c hc
    rw [List.mem_reverse] at hc
    have hc2 := dropLeadHyphen_subset _ hc
    rw [List.mem_reverse] at hc2
    exact dropLeadHyphen_subset _ hc2

theorem slugChars_props (l : List Char) :
    (∀ c ∈ slugChars l, isLowerAlphaNumB c = true ∨ c = '-')
    ∧ (∀ c ∈ (slugChars l).head?, c ≠ '-')
    ∧ (∀ c ∈ (slugChars l).getLast?, c ≠ '-')
    ∧ NoHyphenRun (slugChars l) := by
  have hchain := squashRunsAux_hyphen_chain false
    (squashRunsAux isWsCharB false ((trimChars (l.map Char.toLower)).filter isSlugKeepB))
  obtain ⟨hh, hl, hc, hsub⟩ := stripEdgeHyphens_spec _ hchain
  refine ⟨?_, hh, hl, hc⟩
  intro c hcmem
  have hc2 := hsub hcmem
  rcases mem_squashRunsAux isHyphenB _ false c hc2 with h | ⟨hc3, _⟩
  · exact Or.inr h
  · rcases mem_squashRunsAux isWsCharB _ false c hc3 with h | ⟨hc4, hws⟩
    · exact Or.inr h
    · have hkeep := List.of_mem_filter hc4
      simp only [isSlugKeepB, Bool.or_eq_true] at hkeep
      rcases hkeep with (h | h) | h
      · exact Or.inl h
      · rw [h] at hws
        exact absurd hws (by simp)
      · right
        simpa [isHyphenB] using h

theorem toLower_eq_self_of_slug (c : Char) (h : isLowerAlphaNumB c = true ∨ c = '-') :
    Char.toLower c = c := by
  rcases h with h | rfl
  · simp only [isLowerAlphaNumB, Bool.or_eq_true, Bool.and_eq_true, decide_eq_true_eq] at h
    have hshape : Char.toLower c =
        if 65 ≤ c.toNat ∧ c.toNat ≤ 90 then Char.ofNat (c.toNat + 32) else c := rfl
    rw [hshape, if_neg (by omega)]
  · decide

theorem slug_char_not_ws (c : Char) (h : isLowerAlphaNumB c = true ∨ c = '-') :
    isWsCharB c = false := by
  rcases h with h | rfl
  · by_contra hws
    rw [Bool.not_eq_false] at hws
    simp only [isWsCharB, Bool.or_eq_true, decide_eq_true_eq] at hws
    simp only [isLowerAlphaNumB, Bool.or_eq_true, Bool.and_eq_true, decide_eq_true_eq] at h
    rcases hws with ((((h1 | h1) | h1) | h1) | h1) | h1 <;> subst h1 <;> exact absurd h (by decide)
  · decide

theorem slug_char_keep (c : Char) (h : isLowerAlphaNumB c = true ∨ c = '-') :
    isSlugKeepB c = true := by
  rcases h with h | rfl
  · simp [isSlugKeepB, h]
  · decide

theorem map_toLower_eq_self (l : List Char)
    (h : ∀ c ∈ l, isLowerAlphaNumB c = true ∨ c = '-') :
    l.map Char.toLower = l := by
  induction l with
  | nil => rfl
  | cons x xs ih =>
    rw [List.map_cons, toLower_eq_self_of_slug x (h x (List.mem_cons_self x xs)),
      ih (fun c hc => h c (List.mem_cons_of_mem x hc))]

theorem dropWhile_eq_self_of (p : Char → Bool) (l : List Char)
    (h : ∀ c ∈ l, p c = false) :
    l.dropWhile p = l := by
  cases l with
  | nil => rfl
  | cons x xs =>
    rw [List.dropWhile_cons, if_neg]
    simp [h x (List.mem_cons_self x xs)]

theorem trimChars_eq_self (l : List Char) (h : ∀ c ∈ l, isWsCharB c = false) :
    trimChars l = l := by
  rw [trimChars, dropWhile_eq_self_of _ _ h,
    dropWhile_eq_self_of _ _ (fun c hc => h c (List.mem_reverse.mp hc)),
    List.reverse_reverse]

theorem squashRunsAux_id_of_no_p (p : Char → Bool) (l : List Char)
    (h : ∀ c ∈ l, p c = false) :
    squashRunsAux p false l = l := by
  induction l with
  | nil => rfl
  | cons x xs ih =>
    have hx : p x = false := h x (List.mem_cons_self x xs)
    rw [show squashRunsAux p false (x :: xs) = x :: squashRunsAux p false xs by
      simp [squashRunsAux, hx]]
    rw [ih (fun c hc => h c (List.mem_cons_of_mem x hc))]

theorem squashRunsAux_true_eq_false (l : List Char)
    (h : ∀ c ∈ l.head?, c ≠ '-') :
    squashRunsAux isHyphenB true l = squashRunsAux isHyphenB false l := by
  cases l with
  | nil => rfl
  | cons x xs =>
    have hx : x ≠ '-' := h x (by simp)
    have hfx : isHyphenB x = false := by simp [isHyphenB, hx]
    simp [squashRunsAux, hfx]

theorem squashRunsAux_id_of_chain (l : List Char) (h : NoHyphenRun l) :
    squashRunsAux isHyphenB false l = l := by
  induction l with
  | nil => rfl
  | cons x xs ih =>
    by_cases hx : isHyphenB x
    · have hx' : x = '-' := by simpa [isHyphenB] using hx
      subst hx'
      rw [NoHyphenRun, List.chain'_cons'] at h
      have hhead : ∀ c ∈ xs.head?, c ≠ '-' := fun c hc hcon => h.1 c hc ⟨rfl, hcon⟩
      rw [show squashRunsAux isHyphenB false ('-' :: xs) =
        '-' :: squashRunsAux isHyphenB true xs by simp [squashRunsAux, hx]]
      rw [squashRunsAux_true_eq_false xs hhead, ih h.2]
    · rw [show squashRunsAux isHyphenB false (x :: xs) =
        x :: squashRunsAux isHyphenB false xs by simp [squashRunsAux, hx]]
      rw [ih (List.Chain'.tail h)]

theorem dropLeadHyphen_eq_self (l : List Char) (h : ∀ c ∈ l.head?, c ≠ '-') :
    dropLeadHyphen l = l := by
  cases l with
  | nil => rfl
  | cons x xs =>
    have hx : x ≠ '-' := h x (by simp)
    simp [dropLeadHyphen, hx]

theorem stripEdgeHyphens_eq_self (l : List Char)
    (h1 : ∀ c ∈ l.head?, c ≠ '-') (h2 : ∀ c ∈ l.getLast?, c ≠ '-') :
    stripEdgeHyphens l = l := by
  show (dropLeadHyphen ((dropLeadHyphen l).reverse)).reverse = l
  rw [dropLeadHyphen_eq_self l h1]
  rw [dropLeadHyphen_eq_self l.reverse
    (by intro c hc; rw [List.head?_reverse] at hc; exact h2 c hc)]
  exact List.reverse_reverse l

theorem slugChars_idempotent (l : List Char) : slugChars (slugChars l) = slugChars l := by
  obtain ⟨hchar, hhead, hlast, hchain⟩ := slugChars_props l
  conv_lhs => rw [slugChars]
  rw [map_toLower_eq_self (slugChars l) hchar]
  rw [trimChars_eq_self (slugChars l) (fun c hc => slug_char_not_ws c (hchar c hc))]
  rw [List.filter_eq_self.mpr (fun c hc => slug_char_keep c (hchar c hc))]
  rw [squashRunsAux_id_of_no_p isWsCharB (slugChars l)
    (fun c hc => slug_char_not_ws c (hchar c hc))]
  rw [squashRunsAux_id_of_chain (slugChars l) hchain]
  exact stripEdgeHyphens_eq_self (slugChars l) hhead hlast

/-! ### Claim C6 -/

/-- C6: for every input string, generateSlugFromTitle produces only lowercase
letters, digits and hyphens, with no leading or trailing hyphen and no run of
two or more consecutive hyphens, and the function is idempotent. -/
theorem claim_C6_generateSlugFromTitle (s : String) :
    (∀ c ∈ (generateSlugFromTitle s).data, isLowerAlphaNumB c = true ∨ c = '-')
    ∧ (∀ c ∈ (generateSlugFromTitle s).data.head?, c ≠ '-')
    ∧ (∀ c ∈ (generateSlugFromTitle s).data.getLast?, c ≠ '-')
    ∧ NoHyphenRun (generateSlugFromTitle s).data
    ∧ generateSlugFromTitle (generateSlugFromTitle s) = generateSlugFromTitle s := by
  obtain ⟨h1, h2, h3, h4⟩ := slugChars_props s.data
  refine ⟨h1, h2, h3, h4, ?_⟩
  show (⟨slugChars (slugChars s.data)⟩ : String) = ⟨slugChars s.data⟩
  rw [slugChars_idempotent]

/-- Witness for C6 at a concrete input containing uppercase letters,
punctuation, whitespace runs and edge hyphens. -/
theorem claim_C6_generateSlugFromTitle_witness :
    ((∀ c ∈ (generateSlugFromTitle "  --Hello,  World!--  ").data,
        isLowerAlphaNumB c = true ∨ c = '-')
    ∧ (∀ c ∈ (generateSlugFromTitle "  --Hello,  World!--  ").data.head?, c ≠ '-')
    ∧ (∀ c ∈ (generateSlugFromTitle "  --Hello,  World!--  ").data.getLast?, c ≠ '-')
    ∧ NoHyphenRun (generateSlugFromTitle "  --Hello,  World!--  ").data
    ∧ generateSlugFromTitle (generateSlugFromTitle "  --Hello,  World!--  ") =
        generateSlugFromTitle "  --Hello,  World!--  ")
    ∧ generateSlugFromTitle "  --Hello,  World!--  " = "hello-world" :=
  ⟨claim_C6_generateSlugFromTitle "  --Hello,  World!--  ", by decide⟩

/-! ### Claim C1: status distinctness across persisting operations -/

theorem runMigrations_noFail (userId : String) (migs : List (String × String)) :
    ∀ (emails : List StoredEmail) (i : Nat),
      (runMigrations userId (fun _ => false) migs emails i).2.2 = false := by
  induction migs with
  | nil => intro emails i; rfl
  | cons p rest ih =>
    intro emails i
    cases p with
    | mk old new =>
      simp only [runMigrations, Bool.false_eq_true, if_false]
      exact ih _ _

theorem putConfig_commits (userId : String) (prior : Option (List KanbanColumn))
    (emails : List StoredEmail) (columns : List KanbanColumn)
    (migs : List (String × String)) (hval : columns.all validColumn = true) :
    (putConfig userId prior emails columns migs).status = ApiStatus.ok ∧
    (putConfig userId prior emails columns migs).config = some columns := by
  simp only [putConfig, putConfigF, hval, if_true, runMigrations_noFail,
    Bool.false_eq_true, if_false]
  exact ⟨trivial, trivial⟩

theorem updateColumnEntry_of_nomatch (columns : List KanbanColumn) (columnId : String)
    (field : ColumnField) (value : Option String) (col : KanbanColumn)
    (hcol : col.id ≠ columnId) :
    updateColumnEntry columns columnId field value col = col := by
  simp only [updateColumnEntry]
  rw [if_neg hcol]

theorem updateColumnEntry_status_of_match (columns : List KanbanColumn) (columnId : String)
    (field : ColumnField) (value : Option String) (col : KanbanColumn)
    (hcol : col.id = columnId) (hf : field = .gmailLabel ∨ field = .title) :
    ∃ gl t, (updateColumnEntry columns columnId field value col).status =
      generateUniqueStatus gl t columns (some col.id) := by
  refine ⟨(if field = ColumnField.gmailLabel then value else col.gmailLabel),
          (if field = ColumnField.title then
            match value with
            | some v => if v = "" then col.title else v
            | none => col.title
          else col.title), ?_⟩
  simp only [updateColumnEntry]
  rw [if_pos hcol, if_pos hf]

/-- C1 (amended): the backend handlers perform no status-distinctness check;
the PUT handler commits the payload verbatim, so the persisted statuses are
pairwise distinct exactly when the payload statuses are. Distinctness is
maintained client-side: a title or gmailLabel edit through handleUpdateColumn
preserves pairwise distinct statuses whenever the column ids are pairwise
distinct. -/
theorem claim_C1_status_distinctness :
    (∀ (userId : String) (prior : Option (List KanbanColumn)) (emails : List StoredEmail)
        (columns : List KanbanColumn) (migs : List (String × String)),
      columns.all validColumn = true →
        (putConfig userId prior emails columns migs).config = some columns)
    ∧ (∀ (columns : List KanbanColumn) (columnId : String) (field : ColumnField)
        (value : Option String),
      (columns.map (fun c => c.id)).Nodup →
      (columns.map (fun c => c.status)).Nodup →
      (field = .title ∨ field = .gmailLabel) →
        ((handleUpdateColumn columns columnId field value).map (fun c => c.status)).Nodup) := by
  constructor
  · intro userId prior emails columns migs hval
    exact (putConfig_commits userId prior emails columns migs hval).2
  · intro columns columnId field value hid hst hf
    have hf' : field = .gmailLabel ∨ field = .title := hf.symm
    rw [handleUpdateColumn]
    split
    · exact hst
    · rw [List.map_map]
      rw [List.Nodup, List.pairwise_map] at hst hid ⊢
      have hpair := hid.and hst
      refine List.Pairwise.imp_of_mem ?_ hpair
      intro a b ha hb hab
      simp only [Function.comp]
      by_cases hxa : a.id = columnId <;> by_cases hxb : b.id = columnId
      · exact absurd (hxa.trans hxb.symm) hab.1
      · obtain ⟨gl, t, hga⟩ :=
          updateColumnEntry_status_of_match columns columnId field value a hxa hf'
        rw [hga, updateColumnEntry_of_nomatch columns columnId field value b hxb]
        intro heq
        exact generateUniqueStatus_avoids gl t columns (some a.id) b hb
          (fun e he => by
            have he2 : a.id = e := by injection he
            rw [← he2, hxa]
            exact hxb) heq.symm
      · obtain ⟨gl, t, hgb⟩ :=
          updateColumnEntry_status_of_match columns columnId field value b hxb hf'
        rw [hgb, updateColumnEntry_of_nomatch columns columnId field value a hxa]
        intro heq
        exact generateUniqueStatus_avoids gl t columns (some b.id) a ha
          (fun e he => by
            have he2 : b.id = e := by injection he
            rw [← he2, hxb]
            exact hxa) heq
      · rw [updateColumnEntry_of_nomatch columns columnId field value a hxa,
          updateColumnEntry_of_nomatch columns columnId field value b hxb]
        exact hab.2

/-- Witness for the amended C1 at concrete inputs: a valid PUT payload is
committed verbatim, and retitling the To Do column keeps the default board
statuses pairwise distinct. -/
theorem claim_C1_status_distinctness_witness :
    (putConfig "u1" (some defaultColumns) [] defaultColumns []).config = some defaultColumns
    ∧ ((handleUpdateColumn defaultColumns "col-todo" ColumnField.title
        (some "Archived")).map (fun c => c.status)).Nodup :=
  ⟨claim_C1_status_distinctness.1 "u1" (some defaultColumns) [] defaultColumns [] (by decide),
   claim_C1_status_distinctness.2 defaultColumns "col-todo" ColumnField.title (some "Archived")
     (by decide) (by decide) (Or.inl rfl)⟩

/-- C1 counterexample: the PATCH handler accepts a patch that sets the To Do
column status to inbox, committing a configuration with two columns of equal
status although the prior configuration had pairwise distinct statuses. -/
theorem claim_C1_counterexample :
    (defaultColumns.map (fun c => c.status)).Nodup
    ∧ (patchColumn (some defaultColumns) "col-todo" { status := some "inbox" }).status =
        ApiStatus.ok
    ∧ ¬ ((((patchColumn (some defaultColumns) "col-todo"
        { status := some "inbox" }).config.getD []).map (fun c => c.status)).Nodup) := by
  decide

/-! ### Claim C4: PUT validation and label uniqueness -/

/-- C4 (amended): the PUT handler rejects, before any email rewrite and any
persistence, every payload in which some column lacks a non-empty id, title,
color or icon, leaving the prior configuration and all email statuses
unchanged; it performs no providerLabel-uniqueness check. Duplicate labels
are prevented only client-side, by the isGmailLabelUsed guard of
handleUpdateColumn, which rejects the edit and leaves the column list
unchanged. -/
theorem claim_C4_put_validation :
    (∀ (userId : String) (prior : Option (List KanbanColumn)) (emails : List StoredEmail)
        (columns : List KanbanColumn) (migs : List (String × String)) (fails : Nat → Bool),
      columns.all validColumn = false →
        putConfigF userId prior emails columns migs fails =
          ⟨ApiStatus.badRequest, prior, emails, []⟩)
    ∧ (∀ (columns : List KanbanColumn) (columnId value : String), value ≠ "" →
        isGmailLabelUsed value columns (some columnId) = true →
          handleUpdateColumn columns columnId ColumnField.gmailLabel (some value) = columns) := by
  constructor
  · intro userId prior emails columns migs fails hval
    rw [putConfigF, if_neg (by rw [hval]; exact Bool.false_ne_true)]
  · intro columns columnId value hv hused
    rw [handleUpdateColumn, if_pos]
    exact ⟨rfl, by simpa [isTruthy] using hv, by simpa using hused⟩

/-- Witness for the amended C4 at concrete inputs: a payload with an empty
column id is rejected with no state change, and re-pointing the Done column
at the already-used INBOX label is refused by the dialog. -/
theorem claim_C4_put_validation_witness :
    putConfigF "u1" (some defaultColumns) [⟨"e1", "u1", "inbox"⟩]
        [{ id := "", status := "x", title := "T", color := "bg-red-500", icon := "Mail" }]
        [("inbox", "x")] (fun _ => false) =
      ⟨ApiStatus.badRequest, some defaultColumns, [⟨"e1", "u1", "inbox"⟩], []⟩
    ∧ handleUpdateColumn defaultColumns "col-done" ColumnField.gmailLabel (some "INBOX") =
        defaultColumns :=
  ⟨claim_C4_put_validation.1 "u1" (some defaultColumns) [⟨"e1", "u1", "inbox"⟩]
      [{ id := "", status := "x", title := "T", color := "bg-red-500", icon := "Mail" }]
      [("inbox", "x")] (fun _ => false) (by decide),
   claim_C4_put_validation.2 defaultColumns "col-done" "INBOX" (by decide) (by decide)⟩

/-- A PUT payload in which two columns claim the same provider label. -/
def dupLabelColumns : List KanbanColumn :=
  [ { id := "c1", status := "a", title := "A", color := "bg-blue-500",
      icon := "Inbox", gmailLabel := some "INBOX", order := 0 },
    { id := "c2", status := "b", title := "B", color := "bg-red-500",
      icon := "Mail", gmailLabel := some "INBOX", order := 1 } ]

/-- C4 counterexample: a payload with two columns carrying the same non-empty
providerLabel is not rejected; the PUT handler accepts it and persists both
columns. -/
theorem claim_C4_counterexample :
    dupLabelColumns.map (fun c => c.gmailLabel) = [some "INBOX", some "INBOX"]
    ∧ (putConfig "u1" (some defaultColumns) [] dupLabelColumns []).status = ApiStatus.ok
    ∧ (putConfig "u1" (some defaultColumns) [] dupLabelColumns []).config =
        some dupLabelColumns := by
  decide

/-! ### Claim C8: deletion below the last column -/

theorem filter_ne_id_length (columns : List KanbanColumn) (x : String)
    (h : (columns.map (fun c => c.id)).Nodup) :
    columns.length - 1 ≤ (columns.filter (fun c => decide (c.id ≠ x))).length := by
  induction columns with
  | nil => simp
  | cons c rest ih =>
    rw [List.map_cons, List.nodup_cons] at h
    by_cases hc : c.id = x
    · have hrest : rest.filter (fun c => decide (c.id ≠ x)) = rest := by
        apply List.filter_eq_self.mpr
        intro a ha
        simp only [decide_eq_true_eq]
        intro hax
        exact h.1 (by rw [hc, ← hax]; exact List.mem_map_of_mem _ ha)
      rw [List.filter_cons, if_neg (by simp [hc]), hrest]
      simp only [List.length_cons]
      omega
    · have hrec := ih h.2
      rw [List.filter_cons, if_pos (by simp [hc])]
      simp only [List.length_cons]
      omega

/-- C8 (amended): the client-side handleDeleteColumn rejects a deletion when
only one column remains, and, for configurations with pairwise distinct
column ids, never drops the column count below one. The backend DELETE
handler performs no last-column check, so deleting the only remaining column
directly through the API leaves zero columns. -/
theorem claim_C8_last_column :
    (∀ (columns : List KanbanColumn) (columnId : String) (confirmed : Bool),
      columns.length ≤ 1 → handleDeleteColumn columns columnId confirmed = columns)
    ∧ (∀ (columns : List KanbanColumn) (columnId : String) (confirmed : Bool),
      (columns.map (fun c => c.id)).Nodup → 1 ≤ columns.length →
        1 ≤ (handleDeleteColumn columns columnId confirmed).length) := by
  constructor
  · intro columns columnId confirmed hlen
    rw [handleDeleteColumn, if_pos hlen]
  · intro columns columnId confirmed hid hlen
    rw [handleDeleteColumn]
    by_cases h1 : columns.length ≤ 1
    · rw [if_pos h1]
      exact hlen
    · rw [if_neg h1]
      cases confirmed with
      | false => simpa using hlen
      | true =>
        rw [if_pos rfl]
        have := filter_ne_id_length columns columnId hid
        omega

/-- A configuration holding a single column. -/
def singleColumn : List KanbanColumn :=
  [{ id := "col-1", status := "inbox", title := "Inbox",
     color := "bg-blue-500", icon := "Inbox", gmailLabel := none, order := 0 }]

/-- Witness for the amended C8 at concrete inputs: the dialog refuses to
delete the only column, and deleting one of the four default columns keeps
the count positive. -/
theorem claim_C8_last_column_witness :
    handleDeleteColumn singleColumn "col-1" true = singleColumn
    ∧ 1 ≤ (handleDeleteColumn defaultColumns "col-inbox" true).length :=
  ⟨claim_C8_last_column.1 singleColumn "col-1" true (by decide),
   claim_C8_last_column.2 defaultColumns "col-inbox" true (by decide) (by decide)⟩

/-- C8 counterexample: the DELETE handler removes the only remaining column
and commits an empty configuration, so the column count does not remain at
least one after the attempt. -/
theorem claim_C8_counterexample :
    singleColumn.length = 1
    ∧ (deleteColumn (some singleColumn) "col-1").status = ApiStatus.ok
    ∧ (deleteColumn (some singleColumn) "col-1").config = some [] := by
  decide

/-! ### Claim C9: dense zero-based order after save -/

/-- C9 (amended): the client-side save path normalizes order to the array
index before the PUT request, and the PUT handler commits the payload
verbatim, so a save through the settings dialog persists a dense zero-based
order sequence; the backend DELETE handler (and the other column routes)
performs no renumbering of its own. -/
theorem claim_C9_dense_order :
    (∀ columns : List KanbanColumn,
      (orderColumns columns).map (fun c => c.order) =
        (List.range columns.length).map (fun i => Int.ofNat i))
    ∧ (∀ (userId : String) (prior : Option (List KanbanColumn)) (emails : List StoredEmail)
        (columns : List KanbanColumn) (migs : List (String × String)),
      columns.all validColumn = true →
        (putConfig userId prior emails columns migs).config = some columns) := by
  constructor
  · intro columns
    have hmaps : (orderColumns columns).map (fun c => c.order) =
        (columns.enum.map Prod.fst).map (fun i => Int.ofNat i) := by
      rw [orderColumns, List.map_map, List.map_map]
      rfl
    rw [hmaps, List.enum_map_fst]
  · intro userId prior emails columns migs hval
    exact (putConfig_commits userId prior emails columns migs hval).2

/-- Witness for the amended C9 at a concrete input: normalizing the default
columns yields orders zero to three, and the normalized payload is committed
verbatim. -/
theorem claim_C9_dense_order_witness :
    (orderColumns defaultColumns).map (fun c => c.order) =
      (List.range defaultColumns.length).map (fun i => Int.ofNat i)
    ∧ (putConfig "u1" none [] (orderColumns defaultColumns) []).config =
        some (orderColumns defaultColumns) :=
  ⟨claim_C9_dense_order.1 defaultColumns,
   claim_C9_dense_order.2 "u1" none [] (orderColumns defaultColumns) [] (by decide)⟩

/-- C9 counterexample: after deleting the first default column through the
DELETE handler, the persisted orders are one, two, three, which is not the
dense zero-based sequence matching the array positions. -/
theorem claim_C9_counterexample :
    (deleteColumn (some defaultColumns) "col-inbox").status = ApiStatus.ok
    ∧ ((deleteColumn (some defaultColumns) "col-inbox").config.getD []).map
        (fun c => c.order) = [1, 2, 3]
    ∧ ((deleteColumn (some defaultColumns) "col-inbox").config.getD []).length = 3
    ∧ ([1, 2, 3] : List Int) ≠ (List.range 3).map (fun i => Int.ofNat i) := by
  decide

/-! ### Claim C2: migration semantics of the PUT handler -/

/-- Single-pass view of a migration map, following the spec wording of the
Migration Executor: each entry rewrites precisely the emails of this user
that carried its old status. The amended C2 proves the sequential loop of
the handler agrees with this view when no entry rewrites onto the old status
of a later entry. -/
def migrateEmailSpec (userId : String) (migs : List (String × String))
    (e : StoredEmail) : StoredEmail :=
  if e.userId = userId then
    match migs.find? (fun p => p.1 == e.status) with
    | some p => { e with status := p.2 }
    | none => e
  else e

theorem migrateEmailSpec_nil (userId : String) (e : StoredEmail) :
    migrateEmailSpec userId [] e = e := by
  simp only [migrateEmailSpec, List.find?_nil]
  split <;> rfl

theorem applyEntry_then_spec (userId old new : String) (rest : List (String × String))
    (hnew : ∀ q ∈ rest, new ≠ q.1) (e : StoredEmail) :
    migrateEmailSpec userId rest
      (if migMatches userId old e then { e with status := new } else e) =
    migrateEmailSpec userId ((old, new) :: rest) e := by
  by_cases hu : e.userId = userId
  · by_cases hs : e.status = old
    · have hm : migMatches userId old e = true := by simp [migMatches, hu, hs]
      rw [if_pos hm]
      have hfind : rest.find? (fun p => p.1 == new) = none := by
        rw [List.find?_eq_none]
        intro q hq
        simp only [beq_iff_eq]
        exact fun hqe => hnew q hq hqe.symm
      simp only [migrateEmailSpec, hu, if_pos rfl, hfind]
      rw [List.find?_cons_of_pos _ (by simp [hs])]
      simp
    · have hm : migMatches userId old e = false := by simp [migMatches, hs]
      rw [if_neg (by simp [hm])]
      simp only [migrateEmailSpec]
      rw [List.find?_cons_of_neg _ (by simp; exact fun h => hs h.symm)]
  · have hm : migMatches userId old e = false := by simp [migMatches, hu]
    rw [if_neg (by simp [hm])]
    simp only [migrateEmailSpec, hu, if_neg, if_false]

theorem filter_applyEntry_invariant (userId old new s : String)
    (emails : List StoredEmail) (hold : s ≠ old) (hnew : s ≠ new) :
    ((applyEntry userId old new emails).filter (migMatches userId s)).length =
      (emails.filter (migMatches userId s)).length := by
  induction emails with
  | nil => rfl
  | cons e es ih =>
    simp only [applyEntry, List.map_cons, List.filter_cons] at *
    by_cases hm : migMatches userId old e = true
    · rw [if_pos hm]
      have hml : migMatches userId s { e with status := new } = false := by
        simp only [migMatches, Bool.and_eq_false_iff, decide_eq_false_iff_not]
        exact Or.inr (fun h => hnew h.symm)
      have hmr : migMatches userId s e = false := by
        have hs : e.status = old := by
          simp only [migMatches, Bool.and_eq_true, decide_eq_true_eq] at hm
          exact hm.2
        simp only [migMatches, Bool.and_eq_false_iff, decide_eq_false_iff_not]
        exact Or.inr (fun h => hold (by rw [← h, hs]))
      rw [hml, hmr]
      simp only [Bool.false_eq_true, if_false]
      exact ih
    · rw [if_neg hm]
      by_cases hse : migMatches userId s e = true
      · rw [hse]
        simp only [if_true, List.length_cons]
        rw [ih]
      · have : migMatches userId s e = false := by simpa using hse
        rw [this]
        simp only [Bool.false_eq_true, if_false]
        exact ih

theorem runMigrations_eq_spec (userId : String) :
    ∀ (migs : List (String × String)) (emails : List StoredEmail) (i : Nat),
      (migs.map Prod.fst).Nodup →
      (∀ p ∈ migs, p.1 ≠ p.2) →
      List.Pairwise (fun p q => p.2 ≠ q.1) migs →
      runMigrations userId (fun _ => false) migs emails i =
        (emails.map (migrateEmailSpec userId migs),
         migs.map (fun p => (p, (emails.filter (migMatches userId p.1)).length)),
         false) := by
  intro migs
  induction migs with
  | nil =>
    intro emails i _ _ _
    simp only [runMigrations, List.map_nil]
    rw [show emails.map (migrateEmailSpec userId []) = emails from by
      rw [List.map_congr_left (fun e _ => migrateEmailSpec_nil userId e)]
      exact List.map_id emails]
  | cons p rest ih =>
    cases p with
    | mk old new =>
      intro emails i hkeys hne hni
      rw [List.map_cons, List.nodup_cons] at hkeys
      rw [List.pairwise_cons] at hni
      have hne_head : old ≠ new := hne (old, new) (List.mem_cons_self _ _)
      have hrec := ih (applyEntry userId old new emails) (i + 1) hkeys.2
        (fun q hq => hne q (List.mem_cons_of_mem _ hq)) hni.2
      simp only [runMigrations, Bool.false_eq_true, if_false]
      rw [hrec]
      have hA : (applyEntry userId old new emails).map (migrateEmailSpec userId rest) =
          emails.map (migrateEmailSpec userId ((old, new) :: rest)) := by
        rw [applyEntry, List.map_map]
        exact List.map_congr_left
          (fun e _ => applyEntry_then_spec userId old new rest hni.1 e)
      have hB : entryModifiedCount userId old new emails =
          (emails.filter (migMatches userId old)).length := by
        rw [entryModifiedCount, if_neg hne_head]
      have hC : rest.map (fun q =>
            (q, ((applyEntry userId old new emails).filter (migMatches userId q.1)).length)) =
          rest.map (fun q => (q, (emails.filter (migMatches userId q.1)).length)) := by
        refine List.map_congr_left ?_
        intro q hq
        have hqold : q.1 ≠ old := by
          intro he
          apply hkeys.1
          rw [← he]
          exact List.mem_map.mpr ⟨q, hq, rfl⟩
        have hqnew : q.1 ≠ new := fun he => hni.1 q hq he.symm
        rw [filter_applyEntry_invariant userId old new q.1 emails hqold hqnew]
      rw [hA, hB, hC]
      simp only [List.map_cons]

theorem find?_entry_of_nodup (migs : List (String × String)) (p : String × String)
    (hkeys : (migs.map Prod.fst).Nodup) (hp : p ∈ migs) :
    migs.find? (fun q => q.1 == p.1) = some p := by
  induction migs with
  | nil => cases hp
  | cons q rest ih =>
    rw [List.map_cons, List.nodup_cons] at hkeys
    rcases List.mem_cons.mp hp with rfl | hmem
    · rw [List.find?_cons_of_pos _ (by simp)]
    · have hq : q.1 ≠ p.1 := by
        intro he
        apply hkeys.1
        rw [he]
        exact List.mem_map.mpr ⟨p, hmem, rfl⟩
      rw [List.find?_cons_of_neg _ (by simp [hq])]
      exact ih hkeys.2 hmem

/-- C2 (amended): for every save whose migration-map entries carry pairwise
distinct old statuses, old different from new, and no entry rewriting onto
the old status of a later entry, the PUT handler succeeds, commits the
columns, rewrites every email of this user whose status equalled an entry
old status to that entry new status, modifies no email with a different
status or a different user, and logs per entry a count equal to the number
of emails that previously carried the old status. -/
theorem claim_C2_migration (userId : String) (prior : Option (List KanbanColumn))
    (emails : List StoredEmail) (columns : List KanbanColumn)
    (migs : List (String × String))
    (hval : columns.all validColumn = true)
    (hkeys : (migs.map Prod.fst).Nodup)
    (hne : ∀ p ∈ migs, p.1 ≠ p.2)
    (hni : List.Pairwise (fun p q => p.2 ≠ q.1) migs) :
    (putConfig userId prior emails columns migs).status = ApiStatus.ok
    ∧ (putConfig userId prior emails columns migs).config = some columns
    ∧ (putConfig userId prior emails columns migs).emails =
        emails.map (migrateEmailSpec userId migs)
    ∧ (putConfig userId prior emails columns migs).counts =
        migs.map (fun p => (p, (emails.filter (migMatches userId p.1)).length))
    ∧ (∀ e ∈ emails, ∀ p ∈ migs, e.userId = userId → e.status = p.1 →
        migrateEmailSpec userId migs e = { e with status := p.2 })
    ∧ (∀ e ∈ emails, e.userId ≠ userId ∨ (∀ p ∈ migs, e.status ≠ p.1) →
        migrateEmailSpec userId migs e = e) := by
  have hrun := runMigrations_eq_spec userId migs emails 0 hkeys hne hni
  have hput : putConfig userId prior emails columns migs =
      ⟨ApiStatus.ok, some columns, emails.map (migrateEmailSpec userId migs),
        migs.map (fun p => (p, (emails.filter (migMatches userId p.1)).length))⟩ := by
    simp only [putConfig, putConfigF, hval, if_true, hrun, Bool.false_eq_true, if_false]
  refine ⟨by rw [hput], by rw [hput], by rw [hput], by rw [hput], ?_, ?_⟩
  · intro e _ p hp hu hs
    rw [migrateEmailSpec, if_pos hu]
    rw [show migs.find? (fun q => q.1 == e.status) = some p from by
      rw [hs]; exact find?_entry_of_nodup migs p hkeys hp]
  · intro e _ hcase
    rcases hcase with hu | hstat
    · rw [migrateEmailSpec, if_neg hu]
    · rw [migrateEmailSpec]
      split
      · rw [show migs.find? (fun q => q.1 == e.status) = none from by
          rw [List.find?_eq_none]
          intro q hq
          simp only [beq_iff_eq]
          exact fun he => hstat q hq he.symm]
      · rfl

/-- Board with an extra Sent Mail column, used by the C2 witness. -/
def sentMailColumns : List KanbanColumn :=
  defaultColumns ++
    [{ id := "col-sent", status := "sent-mail", title := "Sent Mail",
       color := "bg-red-500", icon := "Send", gmailLabel := none, order := 4 }]

/-- Witness for the amended C2 at the concrete scenario of the claim: the
Sent Mail column retitled to Archived derives status archived through the
dialog, and a save with the single migration entry sent-mail to archived
rewrites exactly the email that carried sent-mail, reporting count one. -/
theorem claim_C2_migration_witness :
    ((putConfig "u1" (some sentMailColumns)
        [⟨"e1", "u1", "sent-mail"⟩, ⟨"e2", "u1", "inbox"⟩] sentMailColumns
        [("sent-mail", "archived")]).status = ApiStatus.ok
    ∧ (putConfig "u1" (some sentMailColumns)
        [⟨"e1", "u1", "sent-mail"⟩, ⟨"e2", "u1", "inbox"⟩] sentMailColumns
        [("sent-mail", "archived")]).config = some sentMailColumns
    ∧ (putConfig "u1" (some sentMailColumns)
        [⟨"e1", "u1", "sent-mail"⟩, ⟨"e2", "u1", "inbox"⟩] sentMailColumns
        [("sent-mail", "archived")]).emails =
        ([⟨"e1", "u1", "sent-mail"⟩, ⟨"e2", "u1", "inbox"⟩] : List StoredEmail).map
          (migrateEmailSpec "u1" [("sent-mail", "archived")])
    ∧ (putConfig "u1" (some sentMailColumns)
        [⟨"e1", "u1", "sent-mail"⟩, ⟨"e2", "u1", "inbox"⟩] sentMailColumns
        [("sent-mail", "archived")]).counts =
        ([("sent-mail", "archived")] : List (String × String)).map
          (fun p => (p, (([⟨"e1", "u1", "sent-mail"⟩, ⟨"e2", "u1", "inbox"⟩] :
            List StoredEmail).filter (migMatches "u1" p.1)).length))
    ∧ (∀ e ∈ ([⟨"e1", "u1", "sent-mail"⟩, ⟨"e2", "u1", "inbox"⟩] : List StoredEmail),
        ∀ p ∈ ([("sent-mail", "archived")] : List (String × String)),
        e.userId = "u1" → e.status = p.1 →
          migrateEmailSpec "u1" [("sent-mail", "archived")] e = { e with status := p.2 })
    ∧ (∀ e ∈ ([⟨"e1", "u1", "sent-mail"⟩, ⟨"e2", "u1", "inbox"⟩] : List StoredEmail),
        e.userId ≠ "u1" ∨
          (∀ p ∈ ([("sent-mail", "archived")] : List (String × String)), e.status ≠ p.1) →
          migrateEmailSpec "u1" [("sent-mail", "archived")] e = e))
    ∧ (handleUpdateColumn sentMailColumns "col-sent" ColumnField.title
        (some "Archived")).map (fun c => c.status) =
        ["inbox", "todo", "done", "snoozed", "archived"]
    ∧ ([⟨"e1", "u1", "sent-mail"⟩, ⟨"e2", "u1", "inbox"⟩] : List StoredEmail).map
        (migrateEmailSpec "u1" [("sent-mail", "archived")]) =
        [⟨"e1", "u1", "archived"⟩, ⟨"e2", "u1", "inbox"⟩] :=
  ⟨claim_C2_migration "u1" (some sentMailColumns)
      [⟨"e1", "u1", "sent-mail"⟩, ⟨"e2", "u1", "inbox"⟩] sentMailColumns
      [("sent-mail", "archived")] (by decide) (by decide) (by decide) (by decide),
   by decide, by decide⟩

/-- C2 counterexample: with the chained migration map a to b, b to c, the
sequential loop rewrites the email that carried a all the way to c rather
than to b, and the count logged for the entry b to c is one although no email
previously carried b. -/
theorem claim_C2_counterexample :
    (putConfig "u1" (some defaultColumns) [⟨"e1", "u1", "a"⟩] defaultColumns
        [("a", "b"), ("b", "c")]).status = ApiStatus.ok
    ∧ (putConfig "u1" (some defaultColumns) [⟨"e1", "u1", "a"⟩] defaultColumns
        [("a", "b"), ("b", "c")]).emails = [⟨"e1", "u1", "c"⟩]
    ∧ (⟨"e1", "u1", "c"⟩ : StoredEmail) ≠ ⟨"e1", "u1", "b"⟩
    ∧ (putConfig "u1" (some defaultColumns) [⟨"e1", "u1", "a"⟩] defaultColumns
        [("a", "b"), ("b", "c")]).counts = [(("a", "b"), 1), (("b", "c"), 1)]
    ∧ ([⟨"e1", "u1", "a"⟩] : List StoredEmail).filter (migMatches "u1" "b") = [] := by
  decide

/-! ### Claim C3: failure of a migration entry -/

theorem runMigrations_failure (userId : String) :
    ∀ (migs : List (String × String)) (emails : List StoredEmail) (i k : Nat)
      (fails : Nat → Bool),
      k < migs.length →
      fails (i + k) = true →
      (∀ j, j < k → fails (i + j) = false) →
      runMigrations userId fails migs emails i =
        ((runMigrations userId (fun _ => false) (migs.take k) emails i).1,
         (runMigrations userId (fun _ => false) (migs.take k) emails i).2.1,
         true) := by
  intro migs
  induction migs with
  | nil =>
    intro emails i k fails hk
    simp at hk
  | cons p rest ih =>
    intro emails i k fails hk hfk hmin
    cases p with
    | mk old new =>
      cases k with
      | zero =>
        rw [Nat.add_zero] at hfk
        simp only [List.take_zero, runMigrations, hfk, if_true]
      | succ k' =>
        have hf0 : fails i = false := by
          have := hmin 0 (by omega)
          rwa [Nat.add_zero] at this
        have hrec := ih (applyEntry userId old new emails) (i + 1) k' fails
          (by simpa using hk)
          (by rw [show i + 1 + k' = i + (k' + 1) by omega]; exact hfk)
          (fun j hj => by
            rw [show i + 1 + j = i + (j + 1) by omega]
            exact hmin (j + 1) (by omega))
        simp only [List.take_succ_cons, runMigrations, hf0, Bool.false_eq_true, if_false]
        rw [hrec]

/-- C3 (amended): when a migration entry fails, the entries already applied
are not rolled back, but the new column array is not committed: the handler
responds with a server error and the prior configuration remains. The email
collection and logged counts match a clean run of exactly the entries before
the first failing one; a partial migration failure blocks the column-array
commit and surfaces as a hard failure, not a soft warning. -/
theorem claim_C3_migration_failure (userId : String) (prior : Option (List KanbanColumn))
    (emails : List StoredEmail) (columns : List KanbanColumn)
    (migs : List (String × String)) (fails : Nat → Bool) (k : Nat)
    (hval : columns.all validColumn = true)
    (hk : k < migs.length) (hfk : fails k = true)
    (hmin : ∀ j, j < k → fails j = false) :
    (putConfigF userId prior emails columns migs fails).status = ApiStatus.serverError
    ∧ (putConfigF userId prior emails columns migs fails).config = prior
    ∧ (putConfigF userId prior emails columns migs fails).emails =
        (putConfig userId prior emails columns (migs.take k)).emails
    ∧ (putConfigF userId prior emails columns migs fails).counts =
        (putConfig userId prior emails columns (migs.take k)).counts := by
  have hfail := runMigrations_failure userId migs emails 0 k fails hk
    (by simpa using hfk) (fun j hj => by simpa using hmin j hj)
  have hleft : putConfigF userId prior emails columns migs fails =
      ⟨ApiStatus.serverError, prior,
        (runMigrations userId (fun _ => false) (migs.take k) emails 0).1,
        (runMigrations userId (fun _ => false) (migs.take k) emails 0).2.1⟩ := by
    simp only [putConfigF, hval, if_true, hfail]
  have hright : putConfig userId prior emails columns (migs.take k) =
      ⟨ApiStatus.ok, some columns,
        (runMigrations userId (fun _ => false) (migs.take k) emails 0).1,
        (runMigrations userId (fun _ => false) (migs.take k) emails 0).2.1⟩ := by
    simp only [putConfig, putConfigF, hval, if_true, runMigrations_noFail,
      Bool.false_eq_true, if_false]
  rw [hleft, hright]
  exact ⟨rfl, rfl, rfl, rfl⟩

/-- Witness for the amended C3 at a concrete input: with two entries and the
second database call failing, the request is a server error, the prior
configuration is kept, and the emails reflect only the first entry. -/
theorem claim_C3_migration_failure_witness :
    (putConfigF "u1" (some defaultColumns) [⟨"e1", "u1", "a"⟩, ⟨"e2", "u1", "b"⟩]
        singleColumn [("a", "x"), ("b", "y")] (fun i => decide (i = 1))).status =
      ApiStatus.serverError
    ∧ (putConfigF "u1" (some defaultColumns) [⟨"e1", "u1", "a"⟩, ⟨"e2", "u1", "b"⟩]
        singleColumn [("a", "x"), ("b", "y")] (fun i => decide (i = 1))).config =
      some defaultColumns
    ∧ (putConfigF "u1" (some defaultColumns) [⟨"e1", "u1", "a"⟩, ⟨"e2", "u1", "b"⟩]
        singleColumn [("a", "x"), ("b", "y")] (fun i => decide (i = 1))).emails =
      (putConfig "u1" (some defaultColumns) [⟨"e1", "u1", "a"⟩, ⟨"e2", "u1", "b"⟩]
        singleColumn ([("a", "x"), ("b", "y")].take 1)).emails
    ∧ (putConfigF "u1" (some defaultColumns) [⟨"e1", "u1", "a"⟩, ⟨"e2", "u1", "b"⟩]
        singleColumn [("a", "x"), ("b", "y")] (fun i => decide (i = 1))).counts =
      (putConfig "u1" (some defaultColumns) [⟨"e1", "u1", "a"⟩, ⟨"e2", "u1", "b"⟩]
        singleColumn ([("a", "x"), ("b", "y")].take 1)).counts :=
  claim_C3_migration_failure "u1" (some defaultColumns)
    [⟨"e1", "u1", "a"⟩, ⟨"e2", "u1", "b"⟩] singleColumn [("a", "x"), ("b", "y")]
    (fun i => decide (i = 1)) 1 (by decide) (by decide) (by decide)
    (by intro j hj; interval_cases j; decide)

/-- C3 counterexample: one entry fails while the other succeeded, yet the new
column array is not committed and the caller receives a server error, not a
soft warning; the email rewritten by the first entry stays rewritten. -/
theorem claim_C3_counterexample :
    (putConfigF "u1" (some defaultColumns) [⟨"e1", "u1", "a"⟩, ⟨"e2", "u1", "b"⟩]
        singleColumn [("a", "x"), ("b", "y")] (fun i => decide (i = 1))).status =
      ApiStatus.serverError
    ∧ (putConfigF "u1" (some defaultColumns) [⟨"e1", "u1", "a"⟩, ⟨"e2", "u1", "b"⟩]
        singleColumn [("a", "x"), ("b", "y")] (fun i => decide (i = 1))).config =
      some defaultColumns
    ∧ some defaultColumns ≠ some singleColumn
    ∧ (putConfigF "u1" (some defaultColumns) [⟨"e1", "u1", "a"⟩, ⟨"e2", "u1", "b"⟩]
        singleColumn [("a", "x"), ("b", "y")] (fun i => decide (i = 1))).emails =
      [⟨"e1", "u1", "x"⟩, ⟨"e2", "u1", "b"⟩] := by
  decide

/-! ### Bucket lemmas for the board record -/

theorem find?_map_setkey_self (board : List (String × List BoardEmail)) (k : String)
    (v : List BoardEmail) (hany : board.any (fun p => p.1 == k) = true) :
    (board.map (fun p => if p.1 = k then (k, v) else p)).find? (fun p => p.1 == k) =
      some (k, v) := by
  induction board with
  | nil => simp at hany
  | cons p rest ih =>
    by_cases hp : p.1 = k
    · rw [List.map_cons, if_pos hp, List.find?_cons_of_pos _ (by simp)]
    · rw [List.map_cons, if_neg hp, List.find?_cons_of_neg _ (by simp [hp])]
      apply ih
      simpa [List.any_cons, hp] using hany

theorem find?_append_single_self (board : List (String × List BoardEmail)) (k : String)
    (v : List BoardEmail) (hany : board.any (fun p => p.1 == k) = false) :
    (board ++ [(k, v)]).find? (fun p => p.1 == k) = some (k, v) := by
  induction board with
  | nil => simp [List.find?]
  | cons p rest ih =>
    rw [List.any_cons, Bool.or_eq_false_iff] at hany
    rw [List.cons_append, List.find?_cons_of_neg _ (by simp [hany.1])]
    exact ih hany.2

theorem find?_map_setkey_other (board : List (String × List BoardEmail)) (k k' : String)
    (v : List BoardEmail) (hne : k' ≠ k) :
    (board.map (fun p => if p.1 = k then (k, v) else p)).find? (fun p => p.1 == k') =
      board.find? (fun p => p.1 == k') := by
  induction board with
  | nil => rfl
  | cons p rest ih =>
    by_cases hp : p.1 = k
    · rw [List.map_cons, if_pos hp]
      rw [List.find?_cons_of_neg _ (by simp; exact fun h => hne h.symm)]
      rw [List.find?_cons_of_neg _ (by simp [hp]; exact fun h => hne h.symm)]
      exact ih
    · rw [List.map_cons, if_neg hp]
      by_cases hpk : p.1 = k'
      · rw [List.find?_cons_of_pos _ (by simp [hpk]),
          List.find?_cons_of_pos _ (by simp [hpk])]
      · rw [List.find?_cons_of_neg _ (by simp [hpk]),
          List.find?_cons_of_neg _ (by simp [hpk])]
        exact ih

theorem find?_append_single_other (board : List (String × List BoardEmail)) (k k' : String)
    (v : List BoardEmail) (hne : k' ≠ k) :
    (board ++ [(k, v)]).find? (fun p => p.1 == k') = board.find? (fun p => p.1 == k') := by
  induction board with
  | nil =>
    simp only [List.nil_append, List.find?_nil]
    rw [List.find?_cons_of_neg _ (by simp; exact fun h => hne h.symm), List.find?_nil]
  | cons p rest ih =>
    by_cases hpk : p.1 = k'
    · rw [List.cons_append, List.find?_cons_of_pos _ (by simp [hpk]),
        List.find?_cons_of_pos _ (by simp [hpk])]
    · rw [List.cons_append, List.find?_cons_of_neg _ (by simp [hpk]),
        List.find?_cons_of_neg _ (by simp [hpk])]
      exact ih

theorem getBucket_setBucket_self (board : List (String × List BoardEmail)) (k : String)
    (v : List BoardEmail) : getBucket (setBucket board k v) k = some v := by
  rw [setBucket]
  by_cases hany : board.any (fun p => p.1 == k) = true
  · rw [if_pos hany, getBucket, find?_map_setkey_self board k v hany]
    rfl
  · have hany' : board.any (fun p => p.1 == k) = false := by
      cases h : board.any (fun p => p.1 == k)
      · rfl
      · exact absurd h hany
    rw [if_neg hany, getBucket, find?_append_single_self board k v hany']
    rfl

theorem getBucket_setBucket_other (board : List (String × List BoardEmail)) (k k' : String)
    (v : List BoardEmail) (hne : k' ≠ k) :
    getBucket (setBucket board k v) k' = getBucket board k' := by
  rw [setBucket]
  by_cases hany : board.any (fun p => p.1 == k) = true
  · rw [if_pos hany, getBucket, getBucket, find?_map_setkey_other board k k' v hne]
  · rw [if_neg hany, getBucket, getBucket, find?_append_single_other board k k' v hne]

/-! ### Claim C7 -/

/-- C7: dropping a dragged email onto a column whose status differs from the
email current status appends the email to the target bucket with its status
set to the target status; when the target is the snoozed status, snoozeUntil
is set to one hour from now, otherwise snoozeUntil is cleared; the email is
removed from its source bucket; a drop onto the column holding the email
current status is a no-op. -/
theorem claim_C7_handleDrop (board : List (String × List BoardEmail)) (em : BoardEmail)
    (targetStatus : String) (now : Nat) (srcB tgtB : List BoardEmail)
    (hsrc : getBucket board em.status = some srcB)
    (htgt : getBucket board targetStatus = some tgtB) :
    (em.status = targetStatus → handleDrop board (some em) targetStatus now = some board)
    ∧ (em.status ≠ targetStatus →
        ((handleDrop board (some em) targetStatus now).bind
            (fun b => getBucket b targetStatus) =
          some (tgtB ++ [{ em with
            status := targetStatus
            snoozeUntil := if targetStatus = "snoozed" then some (now + 3600) else none }])
        ∧ (handleDrop board (some em) targetStatus now).bind
            (fun b => getBucket b em.status) =
          some (srcB.filter (fun e => decide (e.id ≠ em.id)))
        ∧ ∀ e ∈ srcB.filter (fun e => decide (e.id ≠ em.id)), e.id ≠ em.id)) := by
  constructor
  · intro heq
    simp only [handleDrop, heq, if_true, if_pos rfl]
  · intro hne
    refine ⟨?_, ?_, ?_⟩
    · by_cases hsz : targetStatus = "snoozed"
      · subst hsz
        simp only [handleDrop, hne, if_false, if_true, if_pos rfl, hsrc, htgt,
          Option.some_bind]
        rw [getBucket_setBucket_self]
      · simp only [handleDrop, hne, if_false, if_true, hsz, hsrc, htgt, Option.some_bind]
        rw [getBucket_setBucket_self]
    · by_cases hsz : targetStatus = "snoozed"
      · subst hsz
        simp only [handleDrop, hne, if_false, if_true, if_pos rfl, hsrc, htgt,
          Option.some_bind]
        rw [getBucket_setBucket_other _ _ _ _ hne, getBucket_setBucket_self]
      · simp only [handleDrop, hne, if_false, if_true, hsz, hsrc, htgt, Option.some_bind]
        rw [getBucket_setBucket_other _ _ _ _ hne, getBucket_setBucket_self]
    · intro e he
      have := List.of_mem_filter he
      simpa using this

/-- Witness for C7 at a concrete input: dragging the only todo email onto the
snoozed column at time zero moves it there with a one-hour default snooze,
within the fifty-nine to sixty-one minute window, and empties the todo
bucket. -/
theorem claim_C7_handleDrop_witness :
    (((⟨"e1", "todo", none⟩ : BoardEmail).status = "snoozed" →
      handleDrop [("todo", [⟨"e1", "todo", none⟩]), ("snoozed", [])]
        (some ⟨"e1", "todo", none⟩) "snoozed" 0 =
        some [("todo", [⟨"e1", "todo", none⟩]), ("snoozed", [])])
    ∧ ((⟨"e1", "todo", none⟩ : BoardEmail).status ≠ "snoozed" →
        ((handleDrop [("todo", [⟨"e1", "todo", none⟩]), ("snoozed", [])]
            (some ⟨"e1", "todo", none⟩) "snoozed" 0).bind
            (fun b => getBucket b "snoozed") =
          some ([] ++ [{ (⟨"e1", "todo", none⟩ : BoardEmail) with
            status := "snoozed"
            snoozeUntil := if "snoozed" = "snoozed" then some (0 + 3600) else none }])
        ∧ (handleDrop [("todo", [⟨"e1", "todo", none⟩]), ("snoozed", [])]
            (some ⟨"e1", "todo", none⟩) "snoozed" 0).bind
            (fun b => getBucket b (⟨"e1", "todo", none⟩ : BoardEmail).status) =
          some (([⟨"e1", "todo", none⟩] : List BoardEmail).filter
            (fun e => decide (e.id ≠ (⟨"e1", "todo", none⟩ : BoardEmail).id)))
        ∧ ∀ e ∈ ([⟨"e1", "todo", none⟩] : List BoardEmail).filter
            (fun e => decide (e.id ≠ (⟨"e1", "todo", none⟩ : BoardEmail).id)),
            e.id ≠ (⟨"e1", "todo", none⟩ : BoardEmail).id)))
    ∧ 59 * 60 ≤ 0 + 3600 ∧ 0 + 3600 ≤ 61 * 60 :=
  ⟨claim_C7_handleDrop [("todo", [⟨"e1", "todo", none⟩]), ("snoozed", [])]
      ⟨"e1", "todo", none⟩ "snoozed" 0 [⟨"e1", "todo", none⟩] []
      (by decide) (by decide),
   by decide, by decide⟩

/-! ### Claim C10 -/

/-- C10: re-snoozing an email already in the snoozed bucket only rewrites its
snoozeUntil in place, leaving its id, its status and the other three
hardcoded buckets unchanged; and the handler relocates an email only when it
is found in one of the four hardcoded buckets: for an email found in none of
them, the projection is returned entirely unchanged. -/
theorem claim_C10_handleSnooze (board : List (String × List BoardEmail)) (emailId : String)
    (now hours : Nat) (ib td dn sn : List BoardEmail)
    (hib : getBucket board "inbox" = some ib)
    (htd : getBucket board "todo" = some td)
    (hdn : getBucket board "done" = some dn)
    (hsn : getBucket board "snoozed" = some sn)
    (hib0 : ib.find? (fun e => e.id == emailId) = none)
    (htd0 : td.find? (fun e => e.id == emailId) = none)
    (hdn0 : dn.find? (fun e => e.id == emailId) = none) :
    (∀ e0, sn.find? (fun e => e.id == emailId) = some e0 →
      ((handleSnooze board emailId now hours).bind (fun b => getBucket b "snoozed") =
          some (sn.map (fun e => if e.id = emailId then
            { e with snoozeUntil := some (now + hours * 3600) } else e))
        ∧ (handleSnooze board emailId now hours).bind (fun b => getBucket b "inbox") =
            some ib
        ∧ (handleSnooze board emailId now hours).bind (fun b => getBucket b "todo") =
            some td
        ∧ (handleSnooze board emailId now hours).bind (fun b => getBucket b "done") =
            some dn
        ∧ ∀ e : BoardEmail,
            (if e.id = emailId then
              { e with snoozeUntil := some (now + hours * 3600) } else e).status = e.status
            ∧ (if e.id = emailId then
              { e with snoozeUntil := some (now + hours * 3600) } else e).id = e.id))
    ∧ (sn.find? (fun e => e.id == emailId) = none →
        handleSnooze board emailId now hours = some board) := by
  constructor
  · intro e0 hsn0
    simp only [handleSnooze, hib, htd, hdn, hsn, searchFour, hib0, htd0, hdn0, hsn0,
      Option.map_some]
    refine ⟨?_, ?_, ?_, ?_, ?_⟩
    · simp [getBucket, List.find?]
    · simp [getBucket, List.find?]
    · simp [getBucket, List.find?]
    · simp [getBucket, List.find?]
    · intro e
      constructor <;> split <;> rfl
  · intro hsn0
    simp only [handleSnooze, hib, htd, hdn, hsn, searchFour, hib0, htd0, hdn0, hsn0]
    rfl

/-- A board whose snoozed bucket already holds the email e1. -/
def snoozedBoard : List (String × List BoardEmail) :=
  [("inbox", []), ("todo", []), ("done", []), ("snoozed", [⟨"e1", "snoozed", some 5⟩])]

/-- A board where e1 lives in a custom bucket outside the four hardcoded
statuses. -/
def customBoard : List (String × List BoardEmail) :=
  [("inbox", []), ("todo", []), ("done", []), ("snoozed", []),
   ("archived", [⟨"e1", "archived", none⟩])]

/-- Witness for C10 at concrete inputs: re-snoozing the already snoozed email
only rewrites its snoozeUntil in place, and snoozing an email that lives only
in a custom bucket returns the record unchanged. -/
theorem claim_C10_handleSnooze_witness :
    ((handleSnooze snoozedBoard "e1" 100 4).bind (fun b => getBucket b "snoozed") =
        some (([⟨"e1", "snoozed", some 5⟩] : List BoardEmail).map (fun e =>
          if e.id = "e1" then { e with snoozeUntil := some (100 + 4 * 3600) } else e))
      ∧ (handleSnooze snoozedBoard "e1" 100 4).bind (fun b => getBucket b "inbox") =
          some []
      ∧ (handleSnooze snoozedBoard "e1" 100 4).bind (fun b => getBucket b "todo") =
          some []
      ∧ (handleSnooze snoozedBoard "e1" 100 4).bind (fun b => getBucket b "done") =
          some []
      ∧ ∀ e : BoardEmail,
          (if e.id = "e1" then
            { e with snoozeUntil := some (100 + 4 * 3600) } else e).status = e.status
          ∧ (if e.id = "e1" then
            { e with snoozeUntil := some (100 + 4 * 3600) } else e).id = e.id)
    ∧ handleSnooze customBoard "e1" 100 4 = some customBoard :=
  ⟨(claim_C10_handleSnooze snoozedBoard "e1" 100 4 [] [] [] [⟨"e1", "snoozed", some 5⟩]
      (by decide) (by decide) (by decide) (by decide)
      (by decide) (by decide) (by decide)).1
    ⟨"e1", "snoozed", some 5⟩ (by decide),
   (claim_C10_handleSnooze customBoard "e1" 100 4 [] [] [] []
      (by decide) (by decide) (by decide) (by decide)
      (by decide) (by decide) (by decide)).2 (by decide)⟩

end Kanban
